import Mathlib

/-!
Verification of the identity-bootstrap and usage-gating layer of the
Dream Dictionary client (`js/script.js`).  The JavaScript is embedded
shallowly: strings are lists of characters (ASCII-faithful), the browser's
`localStorage` is an association list, and the asynchronous network exchange
is linearised into an explicit outcome value.  The spec's abstract field
names map to the source's concrete ones: `providerId` is `google_id`,
`displayName` is `name`, `avatarUrl` is `picture`.
-/

namespace DD

/-- Characters of a JavaScript string, modelled as a list of characters. -/
abbrev Str := List Char

/-- View a Lean string literal as its character list. -/
def str (s : String) : Str := s.data

/-- The double-quote character. -/
def qc : Char := Char.ofNat 34

/-- The single-quote character. -/
def sqc : Char := Char.ofNat 39

/-- The backslash character. -/
def bsl : Char := Char.ofNat 92

/-- The opening-brace character. -/
def obr : Char := Char.ofNat 123

/-- The closing-brace character. -/
def cbr : Char := Char.ofNat 125

/-- Decidable prefix test on character lists. -/
def isPre : Str → Str → Bool
  | [], _ => true
  | _ :: _, [] => false
  | a :: as, b :: bs => if a = b then isPre as bs else false

/-- Locate the first occurrence of a non-empty pattern, as
`String.prototype.indexOf` does: the part strictly before the occurrence
and the part strictly after it. -/
def splitFirst (pat : Str) : Str → Option (Str × Str)
  | [] => none
  | c :: t =>
    if isPre pat (c :: t) then some ([], (c :: t).drop pat.length)
    else (splitFirst pat t).map (fun p => (c :: p.1, p.2))

/-- Substring test, modelling `String.prototype.includes`. -/
def hasSub (pat : Str) (s : Str) : Bool := (splitFirst pat s).isSome

/-- The part of `rest` strictly before the next occurrence of `sep` (or all
of it). -/
def splitUpToNext (sep : Str) (rest : Str) : Str :=
  match splitFirst sep rest with
  | none => rest
  | some (pre, _) => pre

/-- The element of `s.split(sep)` at index 1: the slice between the first
occurrence of `sep` and the following occurrence (or the end of the string).
The source only evaluates it under a guard that guarantees at least one
occurrence; the `none` case returns `[]` for totality. -/
def splitPart1 (sep : Str) (s : Str) : Str :=
  match splitFirst sep s with
  | none => []
  | some (_, rest) => splitUpToNext sep rest

/-- ASCII decimal digit test. -/
def isDigitCh (c : Char) : Bool := 48 ≤ c.toNat && c.toNat ≤ 57

/-- ASCII hexadecimal digit test. -/
def isHexCh (c : Char) : Bool :=
  isDigitCh c || (65 ≤ c.toNat && c.toNat ≤ 70) || (97 ≤ c.toNat && c.toNat ≤ 102)

/-- Numeric value of a hexadecimal digit. -/
def hexVal (c : Char) : Nat :=
  if isDigitCh c then c.toNat - 48
  else if c.toNat ≤ 70 then c.toNat - 55
  else c.toNat - 87

/-- Percent-decoding as performed by `URLSearchParams`: a `%` followed by two
hexadecimal digits becomes the byte they denote; a malformed `%` sequence is
passed through unchanged.  (ASCII-faithful: multi-byte UTF-8 sequences are
out of the modelled input space.) -/
def percentDecode : Str → Str
  | [] => []
  | c :: a :: b :: t2 =>
    if c = '%' && isHexCh a && isHexCh b then
      Char.ofNat (16 * hexVal a + hexVal b) :: percentDecode t2
    else c :: percentDecode (a :: b :: t2)
  | c :: t => c :: percentDecode t

/-- The `application/x-www-form-urlencoded` plus-to-space step. -/
def plusToSpace (s : Str) : Str := s.map (fun c => if c = '+' then ' ' else c)

/-- Full decoding of one name or value of a query string. -/
def decodePart (s : Str) : Str := percentDecode (plusToSpace s)

/-- Split on every `&`, as `URLSearchParams` tokenises its input. -/
def splitAmp : Str → List Str
  | [] => [[]]
  | c :: t =>
    if c = '&' then [] :: splitAmp t
    else
      match splitAmp t with
      | [] => [[c]]
      | h :: r => (c :: h) :: r

/-- Remove one leading `?`, as the `URLSearchParams` constructor does. -/
def stripQ : Str → Str
  | [] => []
  | c :: t => if c = '?' then t else c :: t

/-- Parse one `name=value` segment (the part after the first `=` is the
value; a segment without `=` has value `""`). -/
def parsePair (seg : Str) : Str × Str :=
  match splitFirst (['=']) seg with
  | none => (decodePart seg, [])
  | some (k, v) => (decodePart k, decodePart v)

/-- The `URLSearchParams` constructor restricted to what the source consumes:
the resulting name/value list in order, empty segments skipped. -/
def parseQS (s : Str) : List (Str × Str) :=
  ((splitAmp (stripQ s)).filter (fun seg => !seg.isEmpty)).map parsePair

/-- `params.get(k)`: the first value recorded for `k`, or null. -/
def getParam (ps : List (Str × Str)) (k : Str) : Option Str :=
  (ps.find? (fun p => p.1 = k)).map (·.2)

/-- JavaScript string truthiness: null/undefined and `""` are falsy. -/
def truthy : Option Str → Bool
  | none => false
  | some s => !s.isEmpty

/-- JavaScript `a || b` on a (possibly null) string: the default also
replaces the falsy empty string, not only an absent value. -/
def jsOr (a : Option Str) (b : Str) : Str := if truthy a then a.getD [] else b

/-! ## The redirect parameter extractor (`processGoogleLoginData`, parsing part) -/

/-- The literal key scanned for in the URL. -/
def gidKey : Str := str "google_id="

/-- The pre-fragment prefix of a location string. -/
def beforeFragOf (url : Str) : Str :=
  match splitFirst (['#']) url with
  | none => url
  | some (pre, _) => pre

/-- The `window.location.search` component of a location string: the part of
the pre-fragment prefix from the first `?` (inclusive), or `""` if there is
no `?` before the fragment. -/
def searchOf (url : Str) : Str :=
  match splitFirst (['?']) (beforeFragOf url) with
  | none => []
  | some (_, post) => '?' :: post

/-- Strategy 2: parse `window.location.search` as a query string. -/
def queryStrategy (url : Str) : List (Str × Str) := parseQS (searchOf url)

/-- Strategy 3: parse `url.split('#')[1]` as a query string. -/
def hashStrategy (url : Str) : List (Str × Str) := parseQS (splitPart1 (['#']) url)

/-- Characters kept by the slash strategy's sanitiser
`replace(/[^\w\s=&%@.-]/g, '')`. -/
def slashKeep (c : Char) : Bool :=
  c.isAlphanum || c = '_' ||
  c = ' ' || c = Char.ofNat 9 || c = Char.ofNat 10 || c = Char.ofNat 11 ||
  c = Char.ofNat 12 || c = Char.ofNat 13 ||
  c = '=' || c = '&' || c = '%' || c = '@' || c = '.' || c = '-'

/-- Strategy 4: take `url.split('/google_id=')[1]`, strip characters outside
the allow-list, and parse `'google_id=' + residue` as a query string. -/
def slashStrategy (url : Str) : List (Str × Str) :=
  parseQS (gidKey ++ (splitPart1 ('/' :: gidKey) url).filter slashKeep)

/-- Characters that terminate the direct-scan slice. -/
def isIllegalStop (c : Char) : Bool :=
  c = ' ' || c = qc || c = sqc || c = '<' || c = '>' || c = bsl || c = obr || c = cbr

/-- Strategy 5: locate the key directly, scan forward to the first
disallowed character or the end, and parse that slice.  (The guard
guarantees an occurrence; the `none` case is unreachable.) -/
def directStrategy (url : Str) : List (Str × Str) :=
  match splitFirst gidKey url with
  | none => []
  | some (_, post) => parseQS (gidKey ++ post.takeWhile (fun c => !isIllegalStop c))

/-- The ordered strategy cascade of `processGoogleLoginData`: the branch
conditions are tested in this fixed order on the raw URL string. -/
def branchParams (url : Str) : List (Str × Str) :=
  if hasSub ('?' :: gidKey) url then queryStrategy url
  else if hasSub ('#' :: gidKey) url then hashStrategy url
  else if hasSub ('/' :: gidKey) url then slashStrategy url
  else directStrategy url

/-- An extracted identity: `google_id` is the spec's `providerId`, `name`
its `displayName`, `picture` its `avatarUrl`. -/
structure Identity where
  googleId : Str
  name : Option Str
  email : Option Str
  picture : Option Str
deriving DecidableEq, Repr

/-- Read the four identity fields out of a parsed parameter list; a falsy
`google_id` (absent or empty) yields "not found". -/
def identityOf (ps : List (Str × Str)) : Option Identity :=
  match getParam ps (str "google_id") with
  | none => none
  | some g =>
    if g.isEmpty then none
    else some ⟨g, getParam ps (str "name"), getParam ps (str "email"), getParam ps (str "picture")⟩

/-- The extractor: `processGoogleLoginData` up to the point where it hands
the identity to the orchestrator.  Returns `none` ("not found") when the
literal key is absent or when the extracted `google_id` is falsy. -/
def extract (url : Str) : Option Identity :=
  if hasSub gidKey url then identityOf (branchParams url) else none

/-! ## The identity session store (`localStorage`) -/

/-- The browser's `localStorage`, modelled as an association list from key
to stored string; the first binding for a key wins. -/
abbrev Store := List (Str × Str)

/-- `localStorage.getItem`. -/
def storeGet (st : Store) (k : Str) : Option Str :=
  (st.find? (fun p => p.1 = k)).map (·.2)

/-- `localStorage.setItem`. -/
def storeSet (st : Store) (k v : Str) : Store :=
  (k, v) :: st.filter (fun p => ¬ p.1 = k)

/-- `localStorage.removeItem`. -/
def storeRemove (st : Store) (k : Str) : Store :=
  st.filter (fun p => ¬ p.1 = k)

/-- Storage key of the Session record. -/
def userKey : Str := str "user"

/-- Storage key of the anonymous usage counter. -/
def usageKey : Str := str "usageCount"

/-- Storage key of the prompt-cooldown timestamp. -/
def promptKey : Str := str "lastLoginPromptTime"

/-! ## JavaScript number/string conversions -/

/-- The character of a decimal digit. -/
def digitCh (n : Nat) : Char := Char.ofNat (48 + n)

/-- Lower-case hexadecimal digit character. -/
def hexDigCh (n : Nat) : Char := if n < 10 then digitCh n else Char.ofNat (87 + n)

/-- Upper-case hexadecimal digit character. -/
def hexDigUp (n : Nat) : Char := if n < 10 then digitCh n else Char.ofNat (55 + n)

/-- Fuelled decimal printing loop (the fuel is an upper bound on the number,
so it never runs out). -/
def natToStrGo : Nat → Nat → Str → Str
  | 0, _, acc => acc
  | fuel + 1, n, acc =>
    if n < 10 then digitCh n :: acc
    else natToStrGo fuel (n / 10) (digitCh (n % 10) :: acc)

/-- `Number.prototype.toString` for a non-negative integral number. -/
def jsNatToStr (n : Nat) : Str := natToStrGo (n + 1) n []

/-- `Number.prototype.toString` for an integral number. -/
def jsIntToStr (i : Int) : Str :=
  if i < 0 then '-' :: jsNatToStr i.natAbs else jsNatToStr i.toNat

/-- `Number.prototype.toString` where `none` models NaN. -/
def jsNumToStr : Option Int → Str
  | none => str "NaN"
  | some i => jsIntToStr i

/-- ASCII whitespace skipped by `parseInt`. -/
def isJsSpace (c : Char) : Bool :=
  c = ' ' || c = Char.ofNat 9 || c = Char.ofNat 10 || c = Char.ofNat 11 ||
  c = Char.ofNat 12 || c = Char.ofNat 13

/-- Value of a list of decimal digit characters. -/
def digitsToNat (s : Str) : Nat := s.foldl (fun a c => 10 * a + (c.toNat - 48)) 0

/-- Value of a list of hexadecimal digit characters. -/
def hexToNat (s : Str) : Nat := s.foldl (fun a c => 16 * a + hexVal c) 0

/-- Longest decimal-digit prefix, or failure when there is none. -/
def parseDecPrefix (s : Str) : Option Nat :=
  let ds := s.takeWhile isDigitCh
  if ds.isEmpty then none else some (digitsToNat ds)

/-- Longest hexadecimal-digit prefix, or failure when there is none. -/
def parseHexPrefix (s : Str) : Option Nat :=
  let ds := s.takeWhile isHexCh
  if ds.isEmpty then none else some (hexToNat ds)

/-- Magnitude part of `parseInt` with no explicit radix: a `0x`/`0X` prefix
selects base 16, otherwise base 10. -/
def parseNatPrefix (s : Str) : Option Nat :=
  if s.take 2 = str "0x" ∨ s.take 2 = str "0X" then parseHexPrefix (s.drop 2)
  else parseDecPrefix s

/-- `parseInt(s)`:  skip whitespace, read an optional sign, then the longest
digit prefix; `none` models NaN. -/
def jsParseInt (s : Str) : Option Int :=
  match s.dropWhile isJsSpace with
  | [] => none
  | c :: t =>
    if c = '-' then (parseNatPrefix t).map (fun n => -(n : Int))
    else if c = '+' then (parseNatPrefix t).map (fun n => (n : Int))
    else (parseNatPrefix (c :: t)).map (fun n => (n : Int))

/-! ## The usage throttle (`incrementUsageCount` / `showLoginPrompt`) -/

/-- Whether a gated action surfaced the login prompt. -/
inductive Decision
  | showPrompt
  | noPrompt
deriving DecidableEq, Repr

/-- `isLoggedIn`: truthiness of the raw stored record. -/
def isLoggedIn (st : Store) : Bool := truthy (storeGet st userKey)

/-- The guard `!lastPromptTime || (now - parseInt(lastPromptTime)) > 3600000`
of `showLoginPrompt`: a falsy stored value passes; a stored timestamp that
does not parse makes the comparison NaN-false. -/
def promptCond (last : Option Str) (now : Nat) : Bool :=
  match last with
  | none => true
  | some s =>
    s.isEmpty ||
      (match jsParseInt s with
       | none => false
       | some v => decide ((now : Int) - v > 3600000))

/-- `showLoginPrompt`: show the prompt (and remember the time) unless it was
shown within the last 3600000 milliseconds. -/
def showLoginPromptStep (st : Store) (now : Nat) : Decision × Store :=
  if promptCond (storeGet st promptKey) now then
    (.showPrompt, storeSet st promptKey (jsNatToStr now))
  else (.noPrompt, st)

/-- The anonymous-path body of `incrementUsageCount` after the stored
counter has been parsed: increment, write back, and at 15 or more run the
prompt logic. -/
def recordStep (count : Option Int) (st : Store) (now : Nat) : Decision × Store :=
  match count.map (· + 1) with
  | some i =>
    if 15 ≤ i then showLoginPromptStep (storeSet st usageKey (jsNumToStr (some i))) now
    else (.noPrompt, storeSet st usageKey (jsNumToStr (some i)))
  | none => (.noPrompt, storeSet st usageKey (jsNumToStr none))

/-- `incrementUsageCount`, returning whether the prompt was surfaced:  a
no-op when logged in; otherwise the stored counter (`getItem || '0'`, so
an absent or empty record reads `'0'`) is parsed, incremented, written
back, and at 15 or more the prompt logic runs. -/
def recordUse (st : Store) (now : Nat) : Decision × Store :=
  if isLoggedIn st then (.noPrompt, st)
  else recordStep (jsParseInt (jsOr (storeGet st usageKey) (str "0"))) st now

/-- Iterate `recordUse` over a list of call times. -/
def runUses (st : Store) : List Nat → List Decision × Store
  | [] => ([], st)
  | t :: ts =>
    let r1 := recordUse st t
    let r2 := runUses r1.2 ts
    (r1.1 :: r2.1, r2.2)

/-! ## JSON serialisation (`JSON.stringify` / `JSON.parse`, restricted to
the flat string-valued objects this client ever stores) -/

/-- Token stream of the restricted JSON grammar. -/
inductive JTok
  | lbrace
  | rbrace
  | colon
  | comma
  | jstr (s : Str)
deriving DecidableEq, Repr

/-- Value of a single-character JSON escape. -/
def unescCh (c : Char) : Option Char :=
  if c = qc then some qc
  else if c = bsl then some bsl
  else if c = '/' then some '/'
  else if c = 'b' then some (Char.ofNat 8)
  else if c = 'f' then some (Char.ofNat 12)
  else if c = 'n' then some (Char.ofNat 10)
  else if c = 'r' then some (Char.ofNat 13)
  else if c = 't' then some (Char.ofNat 9)
  else none

/-- Tokenise restricted JSON text: `mode` is `none` outside a string
literal and carries the reversed accumulated body inside one. -/
def lexGo : Str → Option Str → Option (List JTok)
  | [], none => some []
  | [], some _ => none
  | c :: t, none =>
    if c = obr then (lexGo t none).map (JTok.lbrace :: ·)
    else if c = cbr then (lexGo t none).map (JTok.rbrace :: ·)
    else if c = ':' then (lexGo t none).map (JTok.colon :: ·)
    else if c = ',' then (lexGo t none).map (JTok.comma :: ·)
    else if c = qc then lexGo t (some [])
    else if c = ' ' || c = Char.ofNat 9 || c = Char.ofNat 10 || c = Char.ofNat 13 then
      lexGo t none
    else none
  | c :: t, some acc =>
    if c = qc then (lexGo t none).map (JTok.jstr acc.reverse :: ·)
    else if c = bsl then
      match t with
      | [] => none
      | e :: t2 =>
        if e = 'u' then
          match t2 with
          | a :: b :: c2 :: d :: t3 =>
            if isHexCh a && isHexCh b && isHexCh c2 && isHexCh d then
              lexGo t3 (some (Char.ofNat (hexToNat [a, b, c2, d]) :: acc))
            else none
          | _ => none
        else
          match unescCh e with
          | some c3 => lexGo t2 (some (c3 :: acc))
          | none => none
    else if c.toNat < 32 then none
    else lexGo t (some (c :: acc))

/-- Tokenise restricted JSON text. -/
def lexJ (s : Str) : Option (List JTok) := lexGo s none

/-- Parse a comma-separated run of `"key":"value"` members, returning the
members and the tokens that follow them. -/
def parsePairsT : List JTok → Option (List (Str × Str) × List JTok)
  | JTok.jstr k :: JTok.colon :: JTok.jstr v :: JTok.comma :: rest =>
    (parsePairsT rest).map (fun p => ((k, v) :: p.1, p.2))
  | JTok.jstr k :: JTok.colon :: JTok.jstr v :: rest => some ([(k, v)], rest)
  | _ => none

/-- Parse a complete token stream as one flat object. -/
def parseToks : List JTok → Option (List (Str × Str))
  | JTok.lbrace :: JTok.rbrace :: [] => some []
  | JTok.lbrace :: rest =>
    match parsePairsT rest with
    | some (obj, [JTok.rbrace]) => some obj
    | _ => none
  | _ => none

/-- `JSON.parse`, restricted to flat objects whose values are strings (the
only shape this client ever writes); any other input fails. -/
def parseJson (s : Str) : Option (List (Str × Str)) := (lexJ s).bind parseToks

/-- `JSON.stringify` escaping of one character. -/
def escCh (c : Char) : Str :=
  if c = qc then [bsl, qc]
  else if c = bsl then [bsl, bsl]
  else if c = Char.ofNat 8 then [bsl, 'b']
  else if c = Char.ofNat 9 then [bsl, 't']
  else if c = Char.ofNat 10 then [bsl, 'n']
  else if c = Char.ofNat 12 then [bsl, 'f']
  else if c = Char.ofNat 13 then [bsl, 'r']
  else if c.toNat < 32 then [bsl, 'u', '0', '0', hexDigCh (c.toNat / 16), hexDigCh (c.toNat % 16)]
  else [c]

/-- `JSON.stringify` body of a string. -/
def escStr (s : Str) : Str := (s.map escCh).flatten

/-- `JSON.stringify` of a string value. -/
def quoteJ (s : Str) : Str := qc :: (escStr s ++ [qc])

/-- One `"key":"value"` member. -/
def jfield (k v : Str) : Str := quoteJ k ++ (':' :: quoteJ v)

/-- One member whose value may be the JSON `null` (a null argument of the
exchange path). -/
def jfieldNull (k : Str) : Option Str → Str
  | none => quoteJ k ++ (':' :: str "null")
  | some v => jfield k v

/-! ## Sessions -/

/-- The stored Session record, with the field names of the source's
`userData` objects (`picture` is the spec's `avatarUrl`). -/
structure Session where
  userId : Str
  username : Str
  token : Str
  googleId : Str
  picture : Str
  email : Str
deriving DecidableEq, Repr

/-- `JSON.stringify` of a full `userData` object, in the insertion order the
source uses. -/
def stringifySession (s : Session) : Str :=
  obr :: (jfield (str "userId") s.userId ++ (',' ::
    (jfield (str "username") s.username ++ (',' ::
      (jfield (str "token") s.token ++ (',' ::
        (jfield (str "googleId") s.googleId ++ (',' ::
          (jfield (str "picture") s.picture ++ (',' ::
            (jfield (str "email") s.email ++ [cbr])))))))))))

/-- `login(userData)`: persist the serialised Session and clear the usage
counter. -/
def saveSession (s : Session) (st : Store) : Store :=
  storeRemove (storeSet st userKey (stringifySession s)) usageKey

/-- The body of `getCurrentUser` once a (truthy-checked) record has been
read: parse it; a record that fails to parse is removed and reads as
absent. -/
def parseStored (u : Str) (st : Store) : Option (List (Str × Str)) × Store :=
  if u.isEmpty then (none, st)
  else
    match parseJson u with
    | some obj => (some obj, st)
    | none => (none, storeRemove st userKey)

/-- `getCurrentUser`: read the record; a falsy record reads as absent; a
record that fails to parse is removed and reads as absent. -/
def getCurrentUser (st : Store) : Option (List (Str × Str)) × Store :=
  match storeGet st userKey with
  | none => (none, st)
  | some u => parseStored u st

/-- The member list `JSON.parse` recovers from a stored Session. -/
def sessionObj (s : Session) : List (Str × Str) :=
  [(str "userId", s.userId), (str "username", s.username), (str "token", s.token),
   (str "googleId", s.googleId), (str "picture", s.picture), (str "email", s.email)]

/-! ## Fallback synthesis (`mockGoogleLogin`) and the orchestrator -/

/-- `encodeURIComponent`, ASCII-faithful. -/
def encodeURIComponent (s : Str) : Str :=
  (s.map (fun c =>
    if c.isAlphanum || c = '-' || c = '_' || c = '.' || c = '!' || c = Char.ofNat 126 ||
        c = '*' || c = sqc || c = '(' || c = ')' then [c]
    else ['%', hexDigUp (c.toNat / 16), hexDigUp (c.toNat % 16)])).flatten

/-- The generated-avatar URL for a display name. -/
def avatarFor (nameV : Str) : Str :=
  str "https://ui-avatars.com/api/?name=" ++ encodeURIComponent nameV ++ str "&background=random"

/-- The `userData` object built by `mockGoogleLogin`: `now` feeds
`Date.now()` and `rand` the `Math.random()` suffix. -/
def mkMockUserData (googleId : Str) (nameO emailO pictureO : Option Str)
    (now : Nat) (rand : Str) : Session :=
  { userId := str "mock-" ++ jsNatToStr now
    username := jsOr nameO (jsOr emailO (str "Local User"))
    token := str "mock-token-" ++ rand
    googleId := googleId
    picture := jsOr pictureO (avatarFor (jsOr nameO (str "User")))
    email := jsOr emailO [] }

/-- The hosts on which `mockGoogleLogin` agrees to run. -/
def allowedHost (h : Str) : Bool :=
  h = str "localhost" || h = str "127.0.0.1" ||
  h = str "qhdsalsm.com" || h = str "www.qhdsalsm.com"

/-- `mockGoogleLogin`: refuses on a non-designated host or a falsy id;
otherwise persists a synthesised Session and clears the usage counter. -/
def mockGoogleLogin (host : Str) (googleId nameO emailO pictureO : Option Str)
    (now : Nat) (rand : Str) (st : Store) : Bool × Store :=
  if !allowedHost host then (false, st)
  else if !truthy googleId then (false, st)
  else
    let u := mkMockUserData (googleId.getD []) nameO emailO pictureO now rand
    (true, storeRemove (storeSet st userKey (stringifySession u)) usageKey)

/-- Result of the single network exchange, linearised: `failed` covers a
transport error, a non-success status and an unparsable or empty body (all
of which reach the same `catch`); `responded` carries the parsed fields. -/
inductive ExchangeResult
  | failed
  | responded (token userName userId : Option Str)
deriving DecidableEq, Repr

/-- Whether the exchange produced a usable (truthy) token. -/
def exchangeGood : ExchangeResult → Bool
  | .failed => false
  | .responded tok _ _ => truthy tok

/-- Observable outcome of the orchestrator. -/
inductive Outcome
  | completed
  | surfaced (msg : Str)
deriving DecidableEq, Repr

/-- `JSON.stringify` of the success-path `userData`: an undefined
`data.user_id` omits the member, a null `picture` is stored as JSON
`null`. -/
def successJson (uid : Option Str) (usernameV tok gid : Str) (pic : Option Str)
    (emailV : Str) : Str :=
  obr :: (List.intercalate [',']
    ((match uid with | none => [] | some u => [jfield (str "userId") u]) ++
      [jfield (str "username") usernameV, jfield (str "token") tok,
        jfield (str "googleId") gid, jfieldNull (str "picture") pic,
        jfield (str "email") emailV]) ++ [cbr])

/-- The `catch` handler of the exchange: try `mockGoogleLogin` as fallback;
if it refuses, surface a failure message. -/
def fallbackAfterFailure (host : Str) (googleId nameO emailO pictureO : Option Str)
    (now : Nat) (rand : Str) (st : Store) : Outcome × Store :=
  let r := mockGoogleLogin host googleId nameO emailO pictureO now rand st
  if r.1 then (.completed, r.2) else (.surfaced (str "Google login failed"), r.2)

/-- The orchestration in `processGoogleLoginData` after extraction: a falsy
id surfaces a message; a designated host synthesises locally without any
exchange; otherwise the exchange result is consumed — a truthy token
persists the exchange Session, anything else goes to the fallback. -/
def resolveIdentity (host : Str) (googleId nameO emailO pictureO : Option Str)
    (exch : ExchangeResult) (now : Nat) (rand : Str) (st : Store) : Outcome × Store :=
  if !truthy googleId then
    (.surfaced (str "Google login failed: Missing required information"), st)
  else if allowedHost host then
    let r := mockGoogleLogin host googleId nameO emailO pictureO now rand st
    (.completed, r.2)
  else
    match exch with
    | .responded tok uname uid =>
      if truthy tok then
        let usernameV := jsOr uname (jsOr nameO (jsOr emailO (str "User")))
        let body := successJson uid usernameV (tok.getD []) (googleId.getD []) pictureO (jsOr emailO [])
        (.completed, storeRemove (storeSet st userKey body) usageKey)
      else fallbackAfterFailure host googleId nameO emailO pictureO now rand st
    | .failed => fallbackAfterFailure host googleId nameO emailO pictureO now rand st


/-- Side condition for first-occurrence reasoning: no occurrence of `pat`
begins strictly inside `pre` when `pre ++ pat ++ suf` is scanned.  Decidable
on concrete `pre`/`pat`. -/
def scOK (pat pre : Str) : Bool :=
  pre.tails.all (fun t => t.isEmpty || !(isPre pat (t ++ pat)))

/-- Characters of the conservative parameter-value alphabet under which all
four URL shapes carry a value unchanged: letters, digits, `_`, `@`, `.`,
`-`. -/
def safeChar (c : Char) : Bool :=
  c.isAlphanum || c = '_' || c = '@' || c = '.' || c = '-'

/-- A parameter value over the conservative alphabet. -/
def safeVal (s : Str) : Bool := s.all safeChar

/-- A string with no control characters (the representability condition of
the serialisation round-trip). -/
def noCtl (s : Str) : Bool := s.all (fun c => 32 ≤ c.toNat)

/-! ## Scanning lemmas -/

theorem isPre_append_self (l t : Str) : isPre l (l ++ t) = true := by
  induction l with
  | nil => rfl
  | cons a as ih => simp [isPre, ih]

theorem isPre_of_long (pat a b : Str) (h : pat.length ≤ a.length) :
    isPre pat (a ++ b) = isPre pat a := by
  induction pat generalizing a with
  | nil => simp [isPre]
  | cons p ps ih =>
    cases a with
    | nil => simp at h
    | cons x xs =>
      simp only [List.cons_append, isPre]
      split
      · exact ih xs (Nat.le_of_succ_le_succ h)
      · rfl

theorem splitFirst_none_of_head_notMem (c : Char) (cs s : Str) (h : c ∉ s) :
    splitFirst (c :: cs) s = none := by
  induction s with
  | nil => rfl
  | cons x t ih =>
    have hcx : ¬ c = x := fun e => h (e ▸ List.mem_cons_self x t)
    simp [splitFirst, isPre, hcx, ih (fun hm => h (List.mem_cons_of_mem _ hm))]

theorem splitFirst_boundary (pat pre suf : Str) (hne : pat ≠ [])
    (hsc : scOK pat pre = true) :
    splitFirst pat (pre ++ (pat ++ suf)) = some (pre, suf) := by
  induction pre with
  | nil =>
    obtain ⟨p, ps, rfl⟩ : ∃ p ps, pat = p :: ps := by
      cases pat with
      | nil => exact absurd rfl hne
      | cons p ps => exact ⟨p, ps, rfl⟩
    simp only [List.nil_append, List.cons_append]
    rw [splitFirst]
    have hp : isPre (p :: ps) (p :: (ps ++ suf)) = true := isPre_append_self _ _
    simp only [List.cons_append] at hp
    simp only [hp, if_true]
    simp [List.drop_left']
  | cons x pre' ih =>
    have hx : isPre pat ((x :: pre') ++ pat) = false := by
      have hm : (x :: pre') ∈ (x :: pre').tails := by simp [List.tails_cons]
      have h2 := (List.all_eq_true.mp hsc) _ hm
      simpa [List.isEmpty] using h2
    have hlong : isPre pat (((x :: pre') ++ pat) ++ suf) = isPre pat ((x :: pre') ++ pat) :=
      isPre_of_long _ _ _ (by simp; omega)
    have hcond : isPre pat ((x :: pre') ++ (pat ++ suf)) = false := by
      have e : (x :: pre') ++ (pat ++ suf) = ((x :: pre') ++ pat) ++ suf := by simp
      rw [e, hlong, hx]
    have hsc' : scOK pat pre' = true := by
      unfold scOK at hsc ⊢
      rw [List.all_eq_true] at hsc ⊢
      intro t ht
      exact hsc t (by simp [List.tails_cons, ht])
    simp only [List.cons_append] at hcond ⊢
    rw [splitFirst, hcond]
    simp [ih hsc']

theorem splitFirst_isSome_append (pat a b : Str) (hne : pat ≠ []) :
    (splitFirst pat (a ++ (pat ++ b))).isSome = true := by
  induction a with
  | nil =>
    obtain ⟨p, ps, rfl⟩ : ∃ p ps, pat = p :: ps := by
      cases pat with
      | nil => exact absurd rfl hne
      | cons p ps => exact ⟨p, ps, rfl⟩
    have hp : isPre (p :: ps) (p :: (ps ++ b)) = true := by
      have := isPre_append_self (p :: ps) b
      simpa using this
    simp [splitFirst, hp]
  | cons x a' ih =>
    rw [List.cons_append, splitFirst]
    split
    · rfl
    · simpa using ih

theorem hasSub_append (pat a b : Str) (hne : pat ≠ []) :
    hasSub pat (a ++ (pat ++ b)) = true := by
  unfold hasSub
  exact splitFirst_isSome_append pat a b hne

theorem hasSub_false_of_head_notMem (c : Char) (cs s : Str) (h : c ∉ s) :
    hasSub (c :: cs) s = false := by
  unfold hasSub
  rw [splitFirst_none_of_head_notMem c cs s h]
  rfl

theorem hasSub_cons_of (pat : Str) (x : Char) (t : Str) (h : hasSub pat t = true) :
    hasSub pat (x :: t) = true := by
  unfold hasSub at h ⊢
  rw [splitFirst]
  split
  · rfl
  · simpa using h

theorem isPre_hasSub (pat s : Str) (hne : pat ≠ []) (h : isPre pat s = true) :
    hasSub pat s = true := by
  cases s with
  | nil =>
    obtain ⟨p, ps, rfl⟩ : ∃ p ps, pat = p :: ps := by
      cases pat with
      | nil => exact absurd rfl hne
      | cons p ps => exact ⟨p, ps, rfl⟩
    simp [isPre] at h
  | cons x t =>
    unfold hasSub
    simp [splitFirst, h]

theorem hasSub_tail_key (c : Char) (k s : Str) (hne : k ≠ [])
    (h : hasSub (c :: k) s = true) : hasSub k s = true := by
  induction s with
  | nil => simp [hasSub, splitFirst] at h
  | cons x t ih =>
    unfold hasSub at h
    rw [splitFirst] at h
    by_cases hp : isPre (c :: k) (x :: t) = true
    · have : (if c = x then isPre k t else false) = true := by
        rw [isPre] at hp
        exact hp
      by_cases hcx : c = x
      · rw [if_pos hcx] at this
        exact hasSub_cons_of k x t (isPre_hasSub k t hne this)
      · rw [if_neg hcx] at this
        exact absurd this (by simp)
    · rw [if_neg hp] at h
      have ht : hasSub (c :: k) t = true := by
        unfold hasSub
        simpa using h
      exact hasSub_cons_of k x t (ih ht)

/-! ## Query-string lemmas -/

theorem percentDecode_id (s : Str) (h : ∀ c ∈ s, ¬ c = '%') : percentDecode s = s := by
  induction s using percentDecode.induct with
  | case1 => rfl
  | case2 c a b t2 hc ih =>
    have hcp : c = '%' := by
      simp only [Bool.and_eq_true, decide_eq_true_eq] at hc
      exact hc.1.1
    exact absurd hcp (h c (by simp))
  | case3 c a b t2 hc ih =>
    rw [percentDecode, if_neg (by simpa using hc)]
    rw [ih (fun x hx => h x (List.mem_cons_of_mem c hx))]
  | case4 c t hshort ih =>
    have e : percentDecode (c :: t) = c :: percentDecode t := by
      cases t with
      | nil => rfl
      | cons x t2 =>
        cases t2 with
        | nil => rfl
        | cons y t3 => exact (hshort x y t3 rfl).elim
    rw [e, ih (fun x hx => h x (List.mem_cons_of_mem c hx))]

theorem plusToSpace_id (s : Str) (h : ∀ c ∈ s, ¬ c = '+') : plusToSpace s = s := by
  unfold plusToSpace
  have : ∀ c ∈ s, (if c = '+' then ' ' else c) = id c := by
    intro c hc
    simp [h c hc]
  rw [List.map_congr_left this, List.map_id]

theorem decodePart_id (s : Str) (hpc : ∀ c ∈ s, ¬ c = '%') (hpl : ∀ c ∈ s, ¬ c = '+') :
    decodePart s = s := by
  unfold decodePart
  rw [plusToSpace_id s hpl, percentDecode_id s hpc]

theorem splitAmp_no_amp (a : Str) (h : '&' ∉ a) : splitAmp a = [a] := by
  induction a with
  | nil => rfl
  | cons c t ih =>
    have hc : ¬ c = '&' := fun e => h (e ▸ List.mem_cons_self c t)
    rw [splitAmp, if_neg hc, ih (fun hm => h (List.mem_cons_of_mem _ hm))]

theorem splitAmp_append (a b : Str) (h : '&' ∉ a) :
    splitAmp (a ++ ('&' :: b)) = a :: splitAmp b := by
  induction a with
  | nil =>
    simp [splitAmp]
  | cons c t ih =>
    have hc : ¬ c = '&' := fun e => h (e ▸ List.mem_cons_self c t)
    rw [List.cons_append, splitAmp, if_neg hc, ih (fun hm => h (List.mem_cons_of_mem _ hm))]

theorem takeWhile_append_all (p : Char → Bool) (a b : Str) (h : ∀ c ∈ a, p c = true) :
    (a ++ b).takeWhile p = a ++ b.takeWhile p := by
  induction a with
  | nil => rfl
  | cons c t ih =>
    rw [List.cons_append, List.takeWhile_cons, if_pos (h c (by simp))]
    rw [ih (fun x hx => h x (List.mem_cons_of_mem _ hx))]
    rfl

theorem takeWhile_all (p : Char → Bool) (a : Str) (h : ∀ c ∈ a, p c = true) :
    a.takeWhile p = a := by
  induction a with
  | nil => rfl
  | cons c t ih =>
    rw [List.takeWhile_cons, if_pos (h c (by simp))]
    rw [ih (fun x hx => h x (List.mem_cons_of_mem _ hx))]

/-! ## Safe-alphabet lemmas -/

theorem safeChar_ne (c l : Char) (h : safeChar c = true) (hl : safeChar l = false) :
    ¬ c = l := by
  intro e
  rw [e, hl] at h
  exact Bool.noConfusion h

theorem not_mem_of_safe (g : Str) (hg : safeVal g = true) (l : Char)
    (hl : safeChar l = false) : l ∉ g := by
  intro hm
  have := (List.all_eq_true.mp hg) _ hm
  exact safeChar_ne l l this hl rfl

theorem safe_slashKeep (c : Char) (h : safeChar c = true) : slashKeep c = true := by
  unfold safeChar at h
  rcases Bool.or_eq_true_iff.mp h with h1 | h5
  · rcases Bool.or_eq_true_iff.mp h1 with h2 | h4
    · rcases Bool.or_eq_true_iff.mp h2 with h3 | hdot
      · rcases Bool.or_eq_true_iff.mp h3 with halnum | hund
        · simp [slashKeep, halnum]
        · simp [slashKeep, hund]
      · simp [slashKeep, hdot]
    · simp [slashKeep, h4]
  · simp [slashKeep, h5]

theorem safe_notStop (c : Char) (h : safeChar c = true) : isIllegalStop c = false := by
  unfold isIllegalStop
  have k : ∀ l : Char, safeChar l = false → (¬ c = l) := fun l hl => safeChar_ne c l h hl
  simp [k ' ' (by decide), k qc (by decide), k sqc (by decide), k '<' (by decide),
    k '>' (by decide), k bsl (by decide), k obr (by decide), k cbr (by decide)]

theorem safe_nonmem_std (g : Str) (hg : safeVal g = true) :
    '&' ∉ g ∧ '%' ∉ g ∧ '+' ∉ g ∧ '?' ∉ g ∧ '#' ∉ g ∧ '/' ∉ g ∧ '=' ∉ g := by
  refine ⟨?_, ?_, ?_, ?_, ?_, ?_, ?_⟩ <;>
    exact not_mem_of_safe g hg _ (by decide)

theorem decode_safe (g : Str) (hg : safeVal g = true) : decodePart g = g :=
  decodePart_id g (fun _ hc e => (safe_nonmem_std g hg).2.1 (e ▸ hc))
    (fun _ hc e => (safe_nonmem_std g hg).2.2.1 (e ▸ hc))

theorem notMem_shape (l : Char) (a g n : Str) (ha : l ∉ a) (hg : l ∉ g) (hn : l ∉ n)
    (hnm : l ∉ str "&name=") : l ∉ a ++ (g ++ (str "&name=" ++ n)) := by
  simp only [List.mem_append]
  rintro (h | h | h | h)
  exacts [ha h, hg h, hnm h, hn h]

theorem qsCore_pair (g n : Str) (hg : safeVal g = true) (hn : safeVal n = true) :
    ((splitAmp (gidKey ++ (g ++ (str "&name=" ++ n)))).filter
        (fun seg => !seg.isEmpty)).map parsePair =
      [(str "google_id", g), (str "name", n)] := by
  have hAmpA : '&' ∉ gidKey ++ g := by
    rw [List.mem_append]
    rintro (hm | hm)
    · revert hm; decide
    · exact (safe_nonmem_std g hg).1 hm
  have hAmpB : '&' ∉ str "name=" ++ n := by
    rw [List.mem_append]
    rintro (hm | hm)
    · revert hm; decide
    · exact (safe_nonmem_std n hn).1 hm
  have e1 : gidKey ++ (g ++ (str "&name=" ++ n)) =
      (gidKey ++ g) ++ ('&' :: (str "name=" ++ n)) := by
    rw [List.append_assoc]
    rfl
  rw [e1, splitAmp_append _ _ hAmpA, splitAmp_no_amp _ hAmpB]
  have hne1 : (gidKey ++ g).isEmpty = false := rfl
  have hne2 : (str "name=" ++ n).isEmpty = false := rfl
  rw [List.filter_cons, hne1]
  rw [List.filter_cons, hne2]
  simp only [List.filter_nil, Bool.not_false, if_true, List.map_cons, List.map_nil]
  have ep1 : parsePair (gidKey ++ g) = (str "google_id", g) := by
    have e2 : gidKey ++ g = str "google_id" ++ (['='] ++ g) := rfl
    rw [parsePair, e2, splitFirst_boundary (['=']) (str "google_id") g (by decide) (by decide)]
    show (decodePart (str "google_id"), decodePart g) = (str "google_id", g)
    rw [decode_safe g hg]
    rw [(by decide : decodePart (str "google_id") = str "google_id")]
  have ep2 : parsePair (str "name=" ++ n) = (str "name", n) := by
    have e3 : str "name=" ++ n = str "name" ++ (['='] ++ n) := rfl
    rw [parsePair, e3, splitFirst_boundary (['=']) (str "name") n (by decide) (by decide)]
    show (decodePart (str "name"), decodePart n) = (str "name", n)
    rw [decode_safe n hn]
    rw [(by decide : decodePart (str "name") = str "name")]
  rw [ep1, ep2]

theorem stripQ_gid (X : Str) : stripQ (gidKey ++ X) = gidKey ++ X := by
  show stripQ ('g' :: (str "oogle_id=" ++ X)) = _
  rw [stripQ, if_neg (by decide)]
  rfl

theorem parseQS_gid (X : Str) :
    parseQS (gidKey ++ X) =
      ((splitAmp (gidKey ++ X)).filter (fun seg => !seg.isEmpty)).map parsePair := by
  unfold parseQS
  rw [stripQ_gid]

theorem parseQS_qmark (s : Str) :
    parseQS ('?' :: s) =
      ((splitAmp s).filter (fun seg => !seg.isEmpty)).map parsePair := by
  unfold parseQS
  rw [stripQ, if_pos rfl]

theorem getParam_cons_eq (k v : Str) (ps : List (Str × Str)) :
    getParam ((k, v) :: ps) k = some v := by
  unfold getParam
  rw [List.find?_cons_of_pos _ (by simp)]
  rfl

theorem getParam_cons_ne (k1 v1 k : Str) (ps : List (Str × Str)) (h : ¬ k1 = k) :
    getParam ((k1, v1) :: ps) k = getParam ps k := by
  unfold getParam
  rw [List.find?_cons_of_neg _ (by simp [h])]

theorem extract_from_pairs (url g n : Str) (hg : g ≠ [])
    (hk : hasSub gidKey url = true)
    (hb : branchParams url = [(str "google_id", g), (str "name", n)]) :
    extract url = some ⟨g, some n, none, none⟩ := by
  have hge : g.isEmpty = false := by
    cases g with
    | nil => exact absurd rfl hg
    | cons a t => rfl
  rw [extract, hb]
  simp only [hk, if_true]
  rw [identityOf]
  have h1 : getParam [(str "google_id", g), (str "name", n)] (str "google_id") = some g :=
    getParam_cons_eq _ _ _
  have h2 : getParam [(str "google_id", g), (str "name", n)] (str "name") = some n := by
    rw [getParam_cons_ne _ _ _ _ (by decide), getParam_cons_eq]
  have h3 : getParam [(str "google_id", g), (str "name", n)] (str "email") = none := by
    rw [getParam_cons_ne _ _ _ _ (by decide), getParam_cons_ne _ _ _ _ (by decide)]
    rfl
  have h4 : getParam [(str "google_id", g), (str "name", n)] (str "picture") = none := by
    rw [getParam_cons_ne _ _ _ _ (by decide), getParam_cons_ne _ _ _ _ (by decide)]
    rfl
  rw [h1, h2, h3, h4]
  show (if g.isEmpty = true then none
    else some (Identity.mk g (some n) none none)) = some (Identity.mk g (some n) none none)
  rw [hge]
  simp

/-! ## The four URL shapes -/

theorem extract_query_shape (g n : Str) (hg : g ≠ []) (hsg : safeVal g = true)
    (hsn : safeVal n = true) :
    extract (str "http://x.test/p?google_id=" ++ (g ++ (str "&name=" ++ n))) =
      some ⟨g, some n, none, none⟩ := by
  have hk : hasSub gidKey (str "http://x.test/p?google_id=" ++ (g ++ (str "&name=" ++ n))) = true :=
    hasSub_append gidKey (str "http://x.test/p?") (g ++ (str "&name=" ++ n)) (by decide)
  have hq : hasSub ('?' :: gidKey)
      (str "http://x.test/p?google_id=" ++ (g ++ (str "&name=" ++ n))) = true :=
    hasSub_append ('?' :: gidKey) (str "http://x.test/p") (g ++ (str "&name=" ++ n)) (by decide)
  have hnoHash : ('#' : Char) ∉ str "http://x.test/p?google_id=" ++ (g ++ (str "&name=" ++ n)) :=
    notMem_shape '#' _ g n (by decide) (not_mem_of_safe g hsg '#' (by decide))
      (not_mem_of_safe n hsn '#' (by decide)) (by decide)
  have hbf : beforeFragOf (str "http://x.test/p?google_id=" ++ (g ++ (str "&name=" ++ n))) =
      str "http://x.test/p?google_id=" ++ (g ++ (str "&name=" ++ n)) := by
    unfold beforeFragOf
    rw [splitFirst_none_of_head_notMem '#' [] _ hnoHash]
  have hsplit : splitFirst (['?']) (str "http://x.test/p?google_id=" ++ (g ++ (str "&name=" ++ n))) =
      some (str "http://x.test/p", gidKey ++ (g ++ (str "&name=" ++ n))) :=
    splitFirst_boundary (['?']) (str "http://x.test/p")
      (gidKey ++ (g ++ (str "&name=" ++ n))) (by decide) (by decide)
  have hsearch : searchOf (str "http://x.test/p?google_id=" ++ (g ++ (str "&name=" ++ n))) =
      '?' :: (gidKey ++ (g ++ (str "&name=" ++ n))) := by
    unfold searchOf
    rw [hbf, hsplit]
  have hb : branchParams (str "http://x.test/p?google_id=" ++ (g ++ (str "&name=" ++ n))) =
      [(str "google_id", g), (str "name", n)] := by
    rw [branchParams, if_pos hq, queryStrategy, hsearch, parseQS_qmark, qsCore_pair g n hsg hsn]
  exact extract_from_pairs _ g n hg hk hb

theorem extract_hash_shape (g n : Str) (hg : g ≠ []) (hsg : safeVal g = true)
    (hsn : safeVal n = true) :
    extract (str "http://x.test/p#google_id=" ++ (g ++ (str "&name=" ++ n))) =
      some ⟨g, some n, none, none⟩ := by
  have hk : hasSub gidKey (str "http://x.test/p#google_id=" ++ (g ++ (str "&name=" ++ n))) = true :=
    hasSub_append gidKey (str "http://x.test/p#") (g ++ (str "&name=" ++ n)) (by decide)
  have hnoQ : ('?' : Char) ∉ str "http://x.test/p#google_id=" ++ (g ++ (str "&name=" ++ n)) :=
    notMem_shape '?' _ g n (by decide) (not_mem_of_safe g hsg '?' (by decide))
      (not_mem_of_safe n hsn '?' (by decide)) (by decide)
  have hqF : hasSub ('?' :: gidKey)
      (str "http://x.test/p#google_id=" ++ (g ++ (str "&name=" ++ n))) = false :=
    hasSub_false_of_head_notMem '?' gidKey _ hnoQ
  have hh : hasSub ('#' :: gidKey)
      (str "http://x.test/p#google_id=" ++ (g ++ (str "&name=" ++ n))) = true :=
    hasSub_append ('#' :: gidKey) (str "http://x.test/p") (g ++ (str "&name=" ++ n)) (by decide)
  have hsplit1 : splitFirst (['#'])
      (str "http://x.test/p#google_id=" ++ (g ++ (str "&name=" ++ n))) =
      some (str "http://x.test/p", gidKey ++ (g ++ (str "&name=" ++ n))) :=
    splitFirst_boundary (['#']) (str "http://x.test/p")
      (gidKey ++ (g ++ (str "&name=" ++ n))) (by decide) (by decide)
  have hnoHash2 : ('#' : Char) ∉ gidKey ++ (g ++ (str "&name=" ++ n)) :=
    notMem_shape '#' gidKey g n (by decide) (not_mem_of_safe g hsg '#' (by decide))
      (not_mem_of_safe n hsn '#' (by decide)) (by decide)
  have hsplit2 : splitFirst (['#']) (gidKey ++ (g ++ (str "&name=" ++ n))) = none :=
    splitFirst_none_of_head_notMem '#' [] _ hnoHash2
  have hpart : splitPart1 (['#'])
      (str "http://x.test/p#google_id=" ++ (g ++ (str "&name=" ++ n))) =
      gidKey ++ (g ++ (str "&name=" ++ n)) := by
    unfold splitPart1
    rw [hsplit1]
    show splitUpToNext (['#']) (gidKey ++ (g ++ (str "&name=" ++ n))) = _
    unfold splitUpToNext
    rw [hsplit2]
  have hb : branchParams (str "http://x.test/p#google_id=" ++ (g ++ (str "&name=" ++ n))) =
      [(str "google_id", g), (str "name", n)] := by
    rw [branchParams, if_neg (by simp [hqF]), if_pos hh, hashStrategy, hpart,
      parseQS_gid, qsCore_pair g n hsg hsn]
  exact extract_from_pairs _ g n hg hk hb

theorem extract_slash_shape (g n : Str) (hg : g ≠ []) (hsg : safeVal g = true)
    (hsn : safeVal n = true) :
    extract (str "http://x.test/p/google_id=" ++ (g ++ (str "&name=" ++ n))) =
      some ⟨g, some n, none, none⟩ := by
  have hk : hasSub gidKey (str "http://x.test/p/google_id=" ++ (g ++ (str "&name=" ++ n))) = true :=
    hasSub_append gidKey (str "http://x.test/p/") (g ++ (str "&name=" ++ n)) (by decide)
  have hnoQ : ('?' : Char) ∉ str "http://x.test/p/google_id=" ++ (g ++ (str "&name=" ++ n)) :=
    notMem_shape '?' _ g n (by decide) (not_mem_of_safe g hsg '?' (by decide))
      (not_mem_of_safe n hsn '?' (by decide)) (by decide)
  have hnoH : ('#' : Char) ∉ str "http://x.test/p/google_id=" ++ (g ++ (str "&name=" ++ n)) :=
    notMem_shape '#' _ g n (by decide) (not_mem_of_safe g hsg '#' (by decide))
      (not_mem_of_safe n hsn '#' (by decide)) (by decide)
  have hqF : hasSub ('?' :: gidKey)
      (str "http://x.test/p/google_id=" ++ (g ++ (str "&name=" ++ n))) = false :=
    hasSub_false_of_head_notMem '?' gidKey _ hnoQ
  have hhF : hasSub ('#' :: gidKey)
      (str "http://x.test/p/google_id=" ++ (g ++ (str "&name=" ++ n))) = false :=
    hasSub_false_of_head_notMem '#' gidKey _ hnoH
  have hs : hasSub ('/' :: gidKey)
      (str "http://x.test/p/google_id=" ++ (g ++ (str "&name=" ++ n))) = true :=
    hasSub_append ('/' :: gidKey) (str "http://x.test/p") (g ++ (str "&name=" ++ n)) (by decide)
  have hsplit1 : splitFirst ('/' :: gidKey)
      (str "http://x.test/p/google_id=" ++ (g ++ (str "&name=" ++ n))) =
      some (str "http://x.test/p", g ++ (str "&name=" ++ n)) :=
    splitFirst_boundary ('/' :: gidKey) (str "http://x.test/p")
      (g ++ (str "&name=" ++ n)) (by decide) (by decide)
  have hnoSlash2 : ('/' : Char) ∉ g ++ (str "&name=" ++ n) := by
    simp only [List.mem_append]
    rintro (h | h | h)
    · exact not_mem_of_safe g hsg '/' (by decide) h
    · revert h; decide
    · exact not_mem_of_safe n hsn '/' (by decide) h
  have hsplit2 : splitFirst ('/' :: gidKey) (g ++ (str "&name=" ++ n)) = none :=
    splitFirst_none_of_head_notMem '/' gidKey _ hnoSlash2
  have hpart : splitPart1 ('/' :: gidKey)
      (str "http://x.test/p/google_id=" ++ (g ++ (str "&name=" ++ n))) =
      g ++ (str "&name=" ++ n) := by
    unfold splitPart1
    rw [hsplit1]
    show splitUpToNext ('/' :: gidKey) (g ++ (str "&name=" ++ n)) = _
    unfold splitUpToNext
    rw [hsplit2]
  have hfilter : (g ++ (str "&name=" ++ n)).filter slashKeep = g ++ (str "&name=" ++ n) := by
    rw [List.filter_append, List.filter_append]
    rw [List.filter_eq_self.mpr (fun c hc => safe_slashKeep c ((List.all_eq_true.mp hsg) c hc))]
    rw [List.filter_eq_self.mpr (fun c hc => safe_slashKeep c ((List.all_eq_true.mp hsn) c hc))]
    rw [(by decide : (str "&name=").filter slashKeep = str "&name=")]
  have hb : branchParams (str "http://x.test/p/google_id=" ++ (g ++ (str "&name=" ++ n))) =
      [(str "google_id", g), (str "name", n)] := by
    rw [branchParams, if_neg (by simp [hqF]), if_neg (by simp [hhF]), if_pos hs,
      slashStrategy, hpart, hfilter, parseQS_gid, qsCore_pair g n hsg hsn]
  exact extract_from_pairs _ g n hg hk hb

theorem extract_direct_shape (g n : Str) (hg : g ≠ []) (hsg : safeVal g = true)
    (hsn : safeVal n = true) :
    extract (str "app.x.test;google_id=" ++ (g ++ (str "&name=" ++ n))) =
      some ⟨g, some n, none, none⟩ := by
  have hk : hasSub gidKey (str "app.x.test;google_id=" ++ (g ++ (str "&name=" ++ n))) = true :=
    hasSub_append gidKey (str "app.x.test;") (g ++ (str "&name=" ++ n)) (by decide)
  have hnoQ : ('?' : Char) ∉ str "app.x.test;google_id=" ++ (g ++ (str "&name=" ++ n)) :=
    notMem_shape '?' _ g n (by decide) (not_mem_of_safe g hsg '?' (by decide))
      (not_mem_of_safe n hsn '?' (by decide)) (by decide)
  have hnoH : ('#' : Char) ∉ str "app.x.test;google_id=" ++ (g ++ (str "&name=" ++ n)) :=
    notMem_shape '#' _ g n (by decide) (not_mem_of_safe g hsg '#' (by decide))
      (not_mem_of_safe n hsn '#' (by decide)) (by decide)
  have hnoS : ('/' : Char) ∉ str "app.x.test;google_id=" ++ (g ++ (str "&name=" ++ n)) :=
    notMem_shape '/' _ g n (by decide) (not_mem_of_safe g hsg '/' (by decide))
      (not_mem_of_safe n hsn '/' (by decide)) (by decide)
  have hqF : hasSub ('?' :: gidKey)
      (str "app.x.test;google_id=" ++ (g ++ (str "&name=" ++ n))) = false :=
    hasSub_false_of_head_notMem '?' gidKey _ hnoQ
  have hhF : hasSub ('#' :: gidKey)
      (str "app.x.test;google_id=" ++ (g ++ (str "&name=" ++ n))) = false :=
    hasSub_false_of_head_notMem '#' gidKey _ hnoH
  have hsF : hasSub ('/' :: gidKey)
      (str "app.x.test;google_id=" ++ (g ++ (str "&name=" ++ n))) = false :=
    hasSub_false_of_head_notMem '/' gidKey _ hnoS
  have hsplit : splitFirst gidKey (str "app.x.test;google_id=" ++ (g ++ (str "&name=" ++ n))) =
      some (str "app.x.test;", g ++ (str "&name=" ++ n)) :=
    splitFirst_boundary gidKey (str "app.x.test;")
      (g ++ (str "&name=" ++ n)) (by decide) (by decide)
  have htake : (g ++ (str "&name=" ++ n)).takeWhile (fun c => !isIllegalStop c) =
      g ++ (str "&name=" ++ n) := by
    refine takeWhile_all _ _ ?_
    intro c hc
    simp only [List.mem_append] at hc
    rcases hc with h | h | h
    · simp [safe_notStop c ((List.all_eq_true.mp hsg) c h)]
    · exact (by decide : ∀ c ∈ str "&name=", (!isIllegalStop c) = true) c h
    · simp [safe_notStop c ((List.all_eq_true.mp hsn) c h)]
  have hb : branchParams (str "app.x.test;google_id=" ++ (g ++ (str "&name=" ++ n))) =
      [(str "google_id", g), (str "name", n)] := by
    rw [branchParams, if_neg (by simp [hqF]), if_neg (by simp [hhF]), if_neg (by simp [hsF]),
      directStrategy, hsplit]
    show parseQS (gidKey ++ (g ++ (str "&name=" ++ n)).takeWhile (fun c => !isIllegalStop c)) = _
    rw [htake, parseQS_gid, qsCore_pair g n hsg hsn]
  exact extract_from_pairs _ g n hg hk hb

/-! ## Claim C1 -/

/-- C1, as stated, is false: the slash branch strips characters outside its
allow-list while the query branch keeps them, so the same parameter content
(`name=B~o`) yields different identity fields in the query shape and the
slash-embedded shape. -/
theorem claim_C1_counterexample :
    extract (str "http://x.test/p?google_id=abc&name=B~o") =
        some ⟨str "abc", some (str "B~o"), none, none⟩ ∧
      extract (str "http://x.test/p/google_id=abc&name=B~o") =
        some ⟨str "abc", some (str "Bo"), none, none⟩ ∧
      ¬ extract (str "http://x.test/p?google_id=abc&name=B~o") =
          extract (str "http://x.test/p/google_id=abc&name=B~o") :=
  ⟨by decide, by decide, by decide⟩

/-- C1 (amended): for parameter values over the allow-list alphabet
(letters, digits, `_`, `@`, `.`, `-`), with a non-empty id, all four URL
shapes — query string, fragment, slash-embedded, and mid-string with no
delimiter — extract the same identity fields. -/
theorem claim_C1 (g n : Str) (hg : g ≠ []) (hsg : safeVal g = true)
    (hsn : safeVal n = true) :
    extract (str "http://x.test/p?google_id=" ++ (g ++ (str "&name=" ++ n))) =
        some ⟨g, some n, none, none⟩ ∧
      extract (str "http://x.test/p#google_id=" ++ (g ++ (str "&name=" ++ n))) =
        some ⟨g, some n, none, none⟩ ∧
      extract (str "http://x.test/p/google_id=" ++ (g ++ (str "&name=" ++ n))) =
        some ⟨g, some n, none, none⟩ ∧
      extract (str "app.x.test;google_id=" ++ (g ++ (str "&name=" ++ n))) =
        some ⟨g, some n, none, none⟩ :=
  ⟨extract_query_shape g n hg hsg hsn, extract_hash_shape g n hg hsg hsn,
    extract_slash_shape g n hg hsg hsn, extract_direct_shape g n hg hsg hsn⟩

/-- Witness: C1 (amended) applied to the claim's own example content
`google_id=abc&name=Bo`. -/
theorem claim_C1_witness :
    extract (str "http://x.test/p?google_id=" ++ (str "abc" ++ (str "&name=" ++ str "Bo"))) =
        some ⟨str "abc", some (str "Bo"), none, none⟩ ∧
      extract (str "http://x.test/p#google_id=" ++ (str "abc" ++ (str "&name=" ++ str "Bo"))) =
        some ⟨str "abc", some (str "Bo"), none, none⟩ ∧
      extract (str "http://x.test/p/google_id=" ++ (str "abc" ++ (str "&name=" ++ str "Bo"))) =
        some ⟨str "abc", some (str "Bo"), none, none⟩ ∧
      extract (str "app.x.test;google_id=" ++ (str "abc" ++ (str "&name=" ++ str "Bo"))) =
        some ⟨str "abc", some (str "Bo"), none, none⟩ :=
  claim_C1 (str "abc") (str "Bo") (by decide) (by decide) (by decide)

/-! ## Claim C8 -/

/-- C8, as stated, is false: the branches are not selected by which
delimiter occurs first in the raw string.  In this URL `#google_id=` occurs
before `?google_id=`, so first-delimiter selection would parse the fragment
and find the id `first`; the code tests `?google_id=` first, reads the
(empty) `location.search`, and extracts nothing. -/
theorem claim_C8_counterexample :
    identityOf (hashStrategy (str "http://h/p#google_id=first&a=1?google_id=second")) =
        some ⟨str "first", none, none, none⟩ ∧
      extract (str "http://h/p#google_id=first&a=1?google_id=second") = none ∧
      ¬ extract (str "http://h/p#google_id=first&a=1?google_id=second") =
          identityOf (hashStrategy (str "http://h/p#google_id=first&a=1?google_id=second")) :=
  ⟨by decide, by decide, by decide⟩

/-- C8 (amended): strategies 2-5 are mutually exclusive and selected by the
fixed test order `?google_id=`, then `#google_id=`, then `/google_id=`,
then direct scan — not by textual position; in particular any URL
containing `?google_id=` (even with a later `#google_id=`) is parsed by the
query-string branch, whose guard also establishes the outer key test. -/
theorem claim_C8 (url : Str) :
    (hasSub ('?' :: gidKey) url = true →
      extract url = identityOf (queryStrategy url)) ∧
      (hasSub ('?' :: gidKey) url = false → hasSub ('#' :: gidKey) url = true →
        extract url = identityOf (hashStrategy url)) ∧
      (hasSub ('?' :: gidKey) url = false → hasSub ('#' :: gidKey) url = false →
        hasSub ('/' :: gidKey) url = true → extract url = identityOf (slashStrategy url)) ∧
      (hasSub ('?' :: gidKey) url = false → hasSub ('#' :: gidKey) url = false →
        hasSub ('/' :: gidKey) url = false → hasSub gidKey url = true →
        extract url = identityOf (directStrategy url)) := by
  refine ⟨?_, ?_, ?_, ?_⟩
  · intro h1
    have hk : hasSub gidKey url = true := hasSub_tail_key '?' gidKey url (by decide) h1
    rw [extract, if_pos hk, branchParams, if_pos h1]
  · intro h1 h2
    have hk : hasSub gidKey url = true := hasSub_tail_key '#' gidKey url (by decide) h2
    rw [extract, if_pos hk, branchParams, if_neg (by simp [h1]), if_pos h2]
  · intro h1 h2 h3
    have hk : hasSub gidKey url = true := hasSub_tail_key '/' gidKey url (by decide) h3
    rw [extract, if_pos hk, branchParams, if_neg (by simp [h1]), if_neg (by simp [h2]),
      if_pos h3]
  · intro h1 h2 h3 hk
    rw [extract, if_pos hk, branchParams, if_neg (by simp [h1]), if_neg (by simp [h2]),
      if_neg (by simp [h3])]

/-- Witness: C8 (amended) applied to a URL containing both `?google_id=`
and a later `#google_id=`: the query branch is used. -/
theorem claim_C8_witness :
    extract (str "http://h/p?google_id=abc&x=1#google_id=zzz") =
      identityOf (queryStrategy (str "http://h/p?google_id=abc&x=1#google_id=zzz")) :=
  (claim_C8 (str "http://h/p?google_id=abc&x=1#google_id=zzz")).1 (by decide)

/-! ## Claim C4 -/

/-- C4: the extractor is a total function; a URL without the literal key,
or whose parsed parameters carry no (or an empty) `google_id`, extracts
"not found"; and any successful extraction carries a non-empty id. -/
theorem claim_C4 (url : Str) :
    (hasSub gidKey url = false → extract url = none) ∧
      (getParam (branchParams url) (str "google_id") = none → extract url = none) ∧
      (∀ g, getParam (branchParams url) (str "google_id") = some g → g.isEmpty = true →
        extract url = none) ∧
      (∀ i, extract url = some i → ¬ i.googleId = []) := by
  refine ⟨?_, ?_, ?_, ?_⟩
  · intro h
    rw [extract, h]
    simp
  · intro h
    rw [extract]
    split
    · rw [identityOf, h]
    · rfl
  · intro g hg hge
    rw [extract]
    split
    · rw [identityOf, hg]
      simp [hge]
    · rfl
  · intro i hi
    rw [extract] at hi
    split at hi
    · rw [identityOf] at hi
      cases hg : getParam (branchParams url) (str "google_id") with
      | none => rw [hg] at hi; exact Option.noConfusion hi
      | some g =>
        rw [hg] at hi
        have hi2 : (if g.isEmpty = true then (none : Option Identity)
            else some ⟨g, getParam (branchParams url) (str "name"),
              getParam (branchParams url) (str "email"),
              getParam (branchParams url) (str "picture")⟩) = some i := hi
        by_cases hge : g.isEmpty = true
        · rw [if_pos hge] at hi2
          exact Option.noConfusion hi2
        · rw [if_neg hge] at hi2
          have hgi : i.googleId = g := by
            have := Option.some.inj hi2
            rw [← this]
          rw [hgi]
          intro e
          rw [e] at hge
          exact hge rfl
    · exact Option.noConfusion hi

/-- Witness: C4 applied to a URL with no identity key and to one whose
`google_id` is present but empty while `name` is present. -/
theorem claim_C4_witness :
    extract (str "http://x/p?name=Bo") = none ∧
      extract (str "http://x/p?google_id=&name=Bo") = none :=
  ⟨(claim_C4 (str "http://x/p?name=Bo")).1 (by decide),
    (claim_C4 (str "http://x/p?google_id=&name=Bo")).2.2.1 [] (by decide) (by decide)⟩

/-! ## Store lemmas -/

theorem storeGet_set_self (st : Store) (k v : Str) : storeGet (storeSet st k v) k = some v := by
  unfold storeGet storeSet
  rw [List.find?_cons_of_pos _ (by simp)]
  rfl

theorem find_filter_of (p q : Str × Str → Bool) (l : List (Str × Str))
    (h : ∀ x, p x = true → q x = true) : (l.filter q).find? p = l.find? p := by
  induction l with
  | nil => rfl
  | cons a t ih =>
    by_cases hq : q a = true
    · rw [List.filter_cons_of_pos hq]
      by_cases hp : p a = true
      · rw [List.find?_cons_of_pos _ hp, List.find?_cons_of_pos _ hp]
      · rw [List.find?_cons_of_neg _ (by simp [hp]), List.find?_cons_of_neg _ (by simp [hp]), ih]
    · rw [List.filter_cons_of_neg (by simp [hq])]
      have hp : ¬ p a = true := fun hpa => hq (h a hpa)
      rw [List.find?_cons_of_neg _ (by simp [hp]), ih]

theorem storeGet_set_other (st : Store) (k v k' : Str) (h : ¬ k' = k) :
    storeGet (storeSet st k v) k' = storeGet st k' := by
  unfold storeGet storeSet
  rw [List.find?_cons_of_neg _ (by
    intro hx
    simp only [decide_eq_true_eq] at hx
    exact h hx.symm)]
  rw [find_filter_of _ _ st (by
    intro x hx
    simp only [decide_eq_true_eq] at hx
    simp only [decide_eq_true_eq]
    intro e
    exact h (hx.symm.trans e))]

theorem storeGet_remove_self (st : Store) (k : Str) : storeGet (storeRemove st k) k = none := by
  unfold storeGet storeRemove
  induction st with
  | nil => rfl
  | cons a t ih =>
    by_cases hq : a.1 = k
    · rw [List.filter_cons_of_neg (by simp [hq])]
      exact ih
    · rw [List.filter_cons_of_pos (by simp [hq]), List.find?_cons_of_neg _ (by simp [hq])]
      exact ih

theorem storeGet_remove_other (st : Store) (k k' : Str) (h : ¬ k' = k) :
    storeGet (storeRemove st k) k' = storeGet st k' := by
  unfold storeGet storeRemove
  rw [find_filter_of _ _ st (by
    intro x hx
    simp only [decide_eq_true_eq] at hx
    simp only [decide_eq_true_eq]
    intro e
    exact h (hx.symm.trans e))]

/-! ## Decimal printing and parsing round-trip -/

theorem digitCh_lt (d : Nat) (h : d < 10) : isDigitCh (digitCh d) = true := by
  interval_cases d <;> decide

theorem digit_val (d : Nat) (h : d < 10) : (digitCh d).toNat - 48 = d := by
  interval_cases d <;> decide

theorem natToStrGo_acc (n : Nat) : ∀ (fuel : Nat) (acc : Str), n < fuel →
    natToStrGo fuel n acc = natToStrGo fuel n [] ++ acc := by
  induction n using Nat.strong_induction_on with
  | _ n ih =>
    intro fuel acc hlt
    match fuel with
    | 0 => omega
    | f + 1 =>
      by_cases h10 : n < 10
      · simp only [natToStrGo, h10, if_true]
        rfl
      · simp only [natToStrGo, h10, if_false]
        have hdiv : n / 10 < n := Nat.div_lt_self (by omega) (by omega)
        rw [ih (n / 10) hdiv f (digitCh (n % 10) :: acc) (by omega)]
        rw [ih (n / 10) hdiv f ([digitCh (n % 10)]) (by omega)]
        rw [List.append_assoc]
        rfl

theorem natToStrGo_fuel (n : Nat) : ∀ f1 f2 : Nat, n < f1 → n < f2 →
    natToStrGo f1 n [] = natToStrGo f2 n [] := by
  induction n using Nat.strong_induction_on with
  | _ n ih =>
    intro f1 f2 h1 h2
    match f1, f2 with
    | 0, _ => omega
    | _ + 1, 0 => omega
    | a + 1, b + 1 =>
      by_cases h10 : n < 10
      · simp only [natToStrGo, h10, if_true]
      · simp only [natToStrGo, h10, if_false]
        have hdiv : n / 10 < n := Nat.div_lt_self (by omega) (by omega)
        rw [natToStrGo_acc (n / 10) a ([digitCh (n % 10)]) (by omega)]
        rw [natToStrGo_acc (n / 10) b ([digitCh (n % 10)]) (by omega)]
        rw [ih (n / 10) hdiv a b (by omega) (by omega)]

theorem jsNatToStr_eq (n : Nat) : jsNatToStr n =
    if n < 10 then [digitCh n] else jsNatToStr (n / 10) ++ [digitCh (n % 10)] := by
  by_cases h10 : n < 10
  · unfold jsNatToStr
    simp only [natToStrGo, h10, if_true]
  · have hdiv : n / 10 < n := Nat.div_lt_self (by omega) (by omega)
    simp only [h10, if_false]
    conv_lhs => rw [jsNatToStr]
    simp only [natToStrGo, h10, if_false]
    rw [natToStrGo_acc (n / 10) n ([digitCh (n % 10)]) (by omega)]
    rw [natToStrGo_fuel (n / 10) n (n / 10 + 1) (by omega) (by omega)]
    rfl

theorem jsNatToStr_digits (n : Nat) : ∀ c ∈ jsNatToStr n, isDigitCh c = true := by
  induction n using Nat.strong_induction_on with
  | _ n ih =>
    rw [jsNatToStr_eq]
    by_cases h10 : n < 10
    · simp only [h10, if_true]
      intro c hc
      rw [List.mem_singleton] at hc
      subst hc
      exact digitCh_lt n h10
    · simp only [h10, if_false]
      intro c hc
      rcases List.mem_append.mp hc with h | h
      · exact ih (n / 10) (Nat.div_lt_self (by omega) (by omega)) c h
      · rw [List.mem_singleton] at h
        subst h
        exact digitCh_lt (n % 10) (Nat.mod_lt _ (by omega))

theorem jsNatToStr_ne_nil (n : Nat) : jsNatToStr n ≠ [] := by
  rw [jsNatToStr_eq]
  by_cases h10 : n < 10 <;> simp [h10]

theorem digitsToNat_jsNat (n : Nat) : digitsToNat (jsNatToStr n) = n := by
  induction n using Nat.strong_induction_on with
  | _ n ih =>
    rw [jsNatToStr_eq]
    by_cases h10 : n < 10
    · simp only [h10, if_true]
      show 10 * 0 + ((digitCh n).toNat - 48) = n
      rw [digit_val n h10]
      omega
    · simp only [h10, if_false]
      unfold digitsToNat
      rw [List.foldl_append]
      show 10 * digitsToNat (jsNatToStr (n / 10)) + ((digitCh (n % 10)).toNat - 48) = n
      rw [ih (n / 10) (Nat.div_lt_self (by omega) (by omega)), digit_val (n % 10) (Nat.mod_lt _ (by omega))]
      omega

theorem parseNatPrefix_digits (s : Str) (hne : s ≠ []) (hd : ∀ c ∈ s, isDigitCh c = true) :
    parseNatPrefix s = some (digitsToNat s) := by
  unfold parseNatPrefix
  have hx : ¬ (s.take 2 = str "0x" ∨ s.take 2 = str "0X") := by
    rintro (e | e)
    · have hm : 'x' ∈ s := List.take_subset 2 s (e ▸ (by decide : 'x' ∈ str "0x"))
      exact absurd (hd 'x' hm) (by decide)
    · have hm : 'X' ∈ s := List.take_subset 2 s (e ▸ (by decide : 'X' ∈ str "0X"))
      exact absurd (hd 'X' hm) (by decide)
  rw [if_neg hx]
  unfold parseDecPrefix
  simp only [takeWhile_all isDigitCh s hd]
  have he : s.isEmpty = false := by
    cases s with
    | nil => exact absurd rfl hne
    | cons a t => rfl
  simp [he]

theorem jsParseInt_natStr (n : Nat) : jsParseInt (jsNatToStr n) = some (n : Int) := by
  obtain ⟨c, t, hct⟩ : ∃ c t, jsNatToStr n = c :: t := by
    cases h : jsNatToStr n with
    | nil => exact absurd h (jsNatToStr_ne_nil n)
    | cons c t => exact ⟨c, t, rfl⟩
  have hcd : isDigitCh c = true := jsNatToStr_digits n c (by rw [hct]; simp)
  have hsp : isJsSpace c = false := by
    unfold isJsSpace
    have k : ∀ l : Char, isDigitCh l = false → (¬ c = l) := by
      intro l hl e
      rw [e, hl] at hcd
      exact Bool.noConfusion hcd
    simp [k ' ' (by decide), k (Char.ofNat 9) (by decide), k (Char.ofNat 10) (by decide),
      k (Char.ofNat 11) (by decide), k (Char.ofNat 12) (by decide), k (Char.ofNat 13) (by decide)]
  have hdw : (jsNatToStr n).dropWhile isJsSpace = jsNatToStr n := by
    rw [hct, List.dropWhile_cons, hsp]
    simp
  have hcm : ¬ c = '-' := by
    intro e
    rw [e] at hcd
    exact absurd hcd (by decide)
  have hcp : ¬ c = '+' := by
    intro e
    rw [e] at hcd
    exact absurd hcd (by decide)
  unfold jsParseInt
  rw [hdw, hct]
  show (if c = '-' then (parseNatPrefix t).map (fun m => -(m : Int))
    else if c = '+' then (parseNatPrefix t).map (fun m => (m : Int))
    else (parseNatPrefix (c :: t)).map (fun m => (m : Int))) = some (n : Int)
  rw [if_neg hcm, if_neg hcp, ← hct]
  rw [parseNatPrefix_digits (jsNatToStr n) (jsNatToStr_ne_nil n) (jsNatToStr_digits n)]
  rw [digitsToNat_jsNat]
  rfl

theorem jsNumToStr_succ (k : Nat) : jsNumToStr (some ((k : Int) + 1)) = jsNatToStr (k + 1) := by
  show (if ((k : Int) + 1) < 0 then '-' :: jsNatToStr ((k : Int) + 1).natAbs
    else jsNatToStr ((k : Int) + 1).toNat) = jsNatToStr (k + 1)
  rw [if_neg (by omega)]
  congr 1

/-! ## Throttle step lemmas -/

theorem promptCond_none (now : Nat) : promptCond none now = true := rfl

theorem promptCond_nat (v now : Nat) :
    promptCond (some (jsNatToStr v)) now = decide ((now : Int) - v > 3600000) := by
  have hne : (jsNatToStr v).isEmpty = false := by
    cases h' : jsNatToStr v with
    | nil => exact absurd h' (jsNatToStr_ne_nil v)
    | cons a t => rfl
  show ((jsNatToStr v).isEmpty ||
      (match jsParseInt (jsNatToStr v) with
       | none => false
       | some w => decide ((now : Int) - w > 3600000))) = _
  rw [hne, jsParseInt_natStr v]
  simp

theorem showPrompt_none (st : Store) (now : Nat) (h : storeGet st promptKey = none) :
    showLoginPromptStep st now = (Decision.showPrompt, storeSet st promptKey (jsNatToStr now)) := by
  unfold showLoginPromptStep
  rw [h, promptCond_none]
  simp

theorem showPrompt_recent (st : Store) (now v : Nat)
    (h : storeGet st promptKey = some (jsNatToStr v))
    (hle : ¬ ((now : Int) - v > 3600000)) :
    showLoginPromptStep st now = (Decision.noPrompt, st) := by
  unfold showLoginPromptStep
  rw [h, promptCond_nat]
  simp [hle]

theorem showPrompt_old (st : Store) (now v : Nat)
    (h : storeGet st promptKey = some (jsNatToStr v))
    (hgt : (now : Int) - v > 3600000) :
    showLoginPromptStep st now = (Decision.showPrompt, storeSet st promptKey (jsNatToStr now)) := by
  unfold showLoginPromptStep
  rw [h, promptCond_nat]
  simp [hgt]

theorem recordUse_anon (st : Store) (now : Nat) (hL : isLoggedIn st = false) :
    recordUse st now = recordStep (jsParseInt (jsOr (storeGet st usageKey) (str "0"))) st now := by
  unfold recordUse
  rw [hL]
  simp

/-- `a || b` keeps a non-empty string. -/
theorem jsOr_nonempty (s b : Str) (h : s.isEmpty = false) : jsOr (some s) b = s := by
  simp [jsOr, truthy, h]

theorem recordStep_nat (k : Nat) (st : Store) (now : Nat) :
    recordStep (some (k : Int)) st now =
      (if 15 ≤ k + 1 then showLoginPromptStep (storeSet st usageKey (jsNatToStr (k + 1))) now
       else (Decision.noPrompt, storeSet st usageKey (jsNatToStr (k + 1)))) := by
  show (if (15 : Int) ≤ (k : Int) + 1 then
      showLoginPromptStep (storeSet st usageKey (jsNumToStr (some ((k : Int) + 1)))) now
    else (Decision.noPrompt, storeSet st usageKey (jsNumToStr (some ((k : Int) + 1))))) = _
  rw [jsNumToStr_succ]
  by_cases h : 15 ≤ k + 1
  · rw [if_pos (by exact_mod_cast h), if_pos h]
  · rw [if_neg (by exact_mod_cast h), if_neg h]

theorem recordStep_none (st : Store) (now : Nat) :
    recordStep none st now = (Decision.noPrompt, storeSet st usageKey (str "NaN")) := rfl

theorem isLoggedIn_set_usage (st : Store) (v : Str) :
    isLoggedIn (storeSet st usageKey v) = isLoggedIn st := by
  unfold isLoggedIn
  rw [storeGet_set_other st usageKey v userKey (by decide)]

theorem isLoggedIn_set_prompt (st : Store) (v : Str) :
    isLoggedIn (storeSet st promptKey v) = isLoggedIn st := by
  unfold isLoggedIn
  rw [storeGet_set_other st promptKey v userKey (by decide)]

/-- One anonymous step at a decimal counter below the threshold. -/
theorem recordUse_low (st : Store) (now k : Nat) (hL : isLoggedIn st = false)
    (hc : storeGet st usageKey = some (jsNatToStr k)) (hlow : k + 1 < 15) :
    recordUse st now = (Decision.noPrompt, storeSet st usageKey (jsNatToStr (k + 1))) := by
  rw [recordUse_anon st now hL, hc,
    jsOr_nonempty _ _ (by simpa using jsNatToStr_ne_nil k)]
  rw [jsParseInt_natStr k, recordStep_nat k st now, if_neg (by omega)]

/-- One anonymous step at a decimal counter at or above the threshold. -/
theorem recordUse_high (st : Store) (now k : Nat) (hL : isLoggedIn st = false)
    (hc : storeGet st usageKey = some (jsNatToStr k)) (hhigh : 15 ≤ k + 1) :
    recordUse st now = showLoginPromptStep (storeSet st usageKey (jsNatToStr (k + 1))) now := by
  rw [recordUse_anon st now hL, hc,
    jsOr_nonempty _ _ (by simpa using jsNatToStr_ne_nil k)]
  rw [jsParseInt_natStr k, recordStep_nat k st now, if_pos hhigh]

/-- One anonymous step from an absent counter. -/
theorem recordUse_absent (st : Store) (now : Nat) (hL : isLoggedIn st = false)
    (hc : storeGet st usageKey = none) :
    recordUse st now = (Decision.noPrompt, storeSet st usageKey (jsNatToStr 1)) := by
  rw [recordUse_anon st now hL, hc]
  show recordStep (jsParseInt (str "0")) st now = _
  rw [(by decide : jsParseInt (str "0") = some ((0 : Nat) : Int))]
  rw [recordStep_nat 0 st now, if_neg (by omega)]

/-- Anonymous runs below the threshold never prompt, count up by one per
call, and leave the Session and cooldown state untouched. -/
theorem runUses_anon (ts : List Nat) : ∀ (st : Store) (k : Nat),
    isLoggedIn st = false →
    ((storeGet st usageKey = none ∧ k = 0) ∨ storeGet st usageKey = some (jsNatToStr k)) →
    k + ts.length < 15 →
    (runUses st ts).1 = List.replicate ts.length Decision.noPrompt ∧
      isLoggedIn (runUses st ts).2 = false ∧
      ((storeGet (runUses st ts).2 usageKey = none ∧ k + ts.length = 0) ∨
        storeGet (runUses st ts).2 usageKey = some (jsNatToStr (k + ts.length))) ∧
      storeGet (runUses st ts).2 promptKey = storeGet st promptKey := by
  induction ts with
  | nil =>
    intro st k hL hc _
    exact ⟨rfl, hL, by simpa using hc, rfl⟩
  | cons t ts ih =>
    intro st k hL hc hlt
    have hstep : recordUse st t = (Decision.noPrompt, storeSet st usageKey (jsNatToStr (k + 1))) := by
      rcases hc with ⟨hnone, rfl⟩ | hsome
      · simpa using recordUse_absent st t hL hnone
      · exact recordUse_low st t k hL hsome (by simp at hlt; omega)
    have hL1 : isLoggedIn (storeSet st usageKey (jsNatToStr (k + 1))) = false := by
      rw [isLoggedIn_set_usage]
      exact hL
    have hc1 : storeGet (storeSet st usageKey (jsNatToStr (k + 1))) usageKey =
        some (jsNatToStr (k + 1)) := storeGet_set_self st usageKey _
    have hlt1 : (k + 1) + ts.length < 15 := by simp at hlt; omega
    obtain ⟨hd, hl2, hc2, hp2⟩ := ih (storeSet st usageKey (jsNatToStr (k + 1))) (k + 1) hL1 (Or.inr hc1) hlt1
    unfold runUses
    rw [hstep]
    refine ⟨?_, ?_, ?_, ?_⟩
    · simp only [List.length_cons, List.replicate]
      rw [← hd]
    · exact hl2
    · rcases hc2 with ⟨_, habs⟩ | hc2
      · omega
      · right
        rw [hc2]
        congr 1
        congr 1
        simp
        omega
    · rw [hp2, storeGet_set_other st usageKey _ promptKey (by decide)]

/-! ## Claim C2 -/

/-- C2: with no Session, an absent counter and no cooldown record, 14 calls
never prompt; the 15th prompts and stamps the cooldown with its time; a 16th
call at most 3600000 ms after that stamp does not prompt; a later call more
than 3600000 ms after the stamp prompts again; and the counter, never reset
by any prompt, reads 17 after the 17 calls.  (Times are in milliseconds, as
in `Date.now()`; the spec's 3600 seconds are the code's 3600000 ms.) -/
theorem claim_C2 (st : Store) (ts : List Nat) (t15 t16 t17 : Nat)
    (hL : isLoggedIn st = false)
    (hcount : storeGet st usageKey = none)
    (hprompt : storeGet st promptKey = none)
    (hlen : ts.length = 14)
    (h16 : (t16 : Int) - (t15 : Int) ≤ 3600000)
    (h17 : (t17 : Int) - (t15 : Int) > 3600000) :
    (runUses st ts).1 = List.replicate 14 Decision.noPrompt ∧
      (recordUse (runUses st ts).2 t15).1 = Decision.showPrompt ∧
      storeGet (recordUse (runUses st ts).2 t15).2 promptKey = some (jsNatToStr t15) ∧
      (recordUse (recordUse (runUses st ts).2 t15).2 t16).1 = Decision.noPrompt ∧
      (recordUse (recordUse (recordUse (runUses st ts).2 t15).2 t16).2 t17).1 =
        Decision.showPrompt ∧
      storeGet (recordUse (recordUse (recordUse (runUses st ts).2 t15).2 t16).2 t17).2
        usageKey = some (jsNatToStr 17) := by
  obtain ⟨hd, hL14, hc14, hp14⟩ := runUses_anon ts st 0 hL (Or.inl ⟨hcount, rfl⟩) (by omega)
  rw [hlen] at hd hc14
  have hc14' : storeGet (runUses st ts).2 usageKey = some (jsNatToStr 14) := by
    rcases hc14 with ⟨_, h0⟩ | h
    · exact absurd h0 (by omega)
    · simpa using h
  have hp14' : storeGet (runUses st ts).2 promptKey = none := by rw [hp14, hprompt]
  have e15 : recordUse (runUses st ts).2 t15 =
      (Decision.showPrompt,
        storeSet (storeSet (runUses st ts).2 usageKey (jsNatToStr 15)) promptKey
          (jsNatToStr t15)) := by
    rw [recordUse_high _ t15 14 hL14 hc14' (by omega)]
    exact showPrompt_none _ t15 (by
      rw [storeGet_set_other _ _ _ _ (by decide)]
      exact hp14')
  have hLA : isLoggedIn (storeSet (storeSet (runUses st ts).2 usageKey (jsNatToStr 15))
      promptKey (jsNatToStr t15)) = false := by
    rw [isLoggedIn_set_prompt, isLoggedIn_set_usage]
    exact hL14
  have hcA : storeGet (storeSet (storeSet (runUses st ts).2 usageKey (jsNatToStr 15))
      promptKey (jsNatToStr t15)) usageKey = some (jsNatToStr 15) := by
    rw [storeGet_set_other _ _ _ _ (by decide), storeGet_set_self]
  have hpA : storeGet (storeSet (storeSet (runUses st ts).2 usageKey (jsNatToStr 15))
      promptKey (jsNatToStr t15)) promptKey = some (jsNatToStr t15) := storeGet_set_self _ _ _
  have e16 : recordUse (storeSet (storeSet (runUses st ts).2 usageKey (jsNatToStr 15))
      promptKey (jsNatToStr t15)) t16 =
      (Decision.noPrompt,
        storeSet (storeSet (storeSet (runUses st ts).2 usageKey (jsNatToStr 15)) promptKey
          (jsNatToStr t15)) usageKey (jsNatToStr 16)) := by
    rw [recordUse_high _ t16 15 hLA hcA (by omega)]
    exact showPrompt_recent _ t16 t15 (by
      rw [storeGet_set_other _ _ _ _ (by decide)]
      exact hpA) (by omega)
  have hLB : isLoggedIn (storeSet (storeSet (storeSet (runUses st ts).2 usageKey
      (jsNatToStr 15)) promptKey (jsNatToStr t15)) usageKey (jsNatToStr 16)) = false := by
    rw [isLoggedIn_set_usage]
    exact hLA
  have hcB : storeGet (storeSet (storeSet (storeSet (runUses st ts).2 usageKey
      (jsNatToStr 15)) promptKey (jsNatToStr t15)) usageKey (jsNatToStr 16)) usageKey =
      some (jsNatToStr 16) := storeGet_set_self _ _ _
  have hpB : storeGet (storeSet (storeSet (storeSet (runUses st ts).2 usageKey
      (jsNatToStr 15)) promptKey (jsNatToStr t15)) usageKey (jsNatToStr 16)) promptKey =
      some (jsNatToStr t15) := by
    rw [storeGet_set_other _ _ _ _ (by decide)]
    exact hpA
  have e17 : recordUse (storeSet (storeSet (storeSet (runUses st ts).2 usageKey
      (jsNatToStr 15)) promptKey (jsNatToStr t15)) usageKey (jsNatToStr 16)) t17 =
      (Decision.showPrompt,
        storeSet (storeSet (storeSet (storeSet (storeSet (runUses st ts).2 usageKey
          (jsNatToStr 15)) promptKey (jsNatToStr t15)) usageKey (jsNatToStr 16)) usageKey
          (jsNatToStr 17)) promptKey (jsNatToStr t17)) := by
    rw [recordUse_high _ t17 16 hLB hcB (by omega)]
    exact showPrompt_old _ t17 t15 (by
      rw [storeGet_set_other _ _ _ _ (by decide)]
      exact hpB) (by omega)
  refine ⟨hd, ?_, ?_, ?_, ?_, ?_⟩
  · rw [e15]
  · rw [e15]
    exact hpA
  · rw [e15]
    show (recordUse (storeSet (storeSet (runUses st ts).2 usageKey (jsNatToStr 15))
      promptKey (jsNatToStr t15)) t16).1 = Decision.noPrompt
    rw [e16]
  · rw [e15]
    show (recordUse (recordUse (storeSet (storeSet (runUses st ts).2 usageKey
      (jsNatToStr 15)) promptKey (jsNatToStr t15)) t16).2 t17).1 = Decision.showPrompt
    rw [e16]
    show (recordUse (storeSet (storeSet (storeSet (runUses st ts).2 usageKey
      (jsNatToStr 15)) promptKey (jsNatToStr t15)) usageKey (jsNatToStr 16)) t17).1 =
      Decision.showPrompt
    rw [e17]
  · rw [e15]
    show storeGet (recordUse (recordUse (storeSet (storeSet (runUses st ts).2 usageKey
      (jsNatToStr 15)) promptKey (jsNatToStr t15)) t16).2 t17).2 usageKey =
      some (jsNatToStr 17)
    rw [e16]
    show storeGet (recordUse (storeSet (storeSet (storeSet (runUses st ts).2 usageKey
      (jsNatToStr 15)) promptKey (jsNatToStr t15)) usageKey (jsNatToStr 16)) t17).2
      usageKey = some (jsNatToStr 17)
    rw [e17]
    show storeGet (storeSet (storeSet (storeSet (storeSet (storeSet (runUses st ts).2
      usageKey (jsNatToStr 15)) promptKey (jsNatToStr t15)) usageKey (jsNatToStr 16))
      usageKey (jsNatToStr 17)) promptKey (jsNatToStr t17)) usageKey = some (jsNatToStr 17)
    rw [storeGet_set_other _ _ _ _ (by decide), storeGet_set_self]

/-- Witness: C2 on the empty store, 14 calls at time 0, the 15th at time 0,
a 16th exactly 3600000 ms later (no prompt), and a 17th at 3600001 ms. -/
theorem claim_C2_witness :
    (runUses [] (List.replicate 14 0)).1 = List.replicate 14 Decision.noPrompt ∧
      (recordUse (runUses [] (List.replicate 14 0)).2 0).1 = Decision.showPrompt ∧
      storeGet (recordUse (runUses [] (List.replicate 14 0)).2 0).2 promptKey =
        some (jsNatToStr 0) ∧
      (recordUse (recordUse (runUses [] (List.replicate 14 0)).2 0).2 3600000).1 =
        Decision.noPrompt ∧
      (recordUse (recordUse (recordUse (runUses [] (List.replicate 14 0)).2 0).2
        3600000).2 3600001).1 = Decision.showPrompt ∧
      storeGet (recordUse (recordUse (recordUse (runUses [] (List.replicate 14 0)).2 0).2
        3600000).2 3600001).2 usageKey = some (jsNatToStr 17) :=
  claim_C2 [] (List.replicate 14 0) 0 3600000 3600001 (by decide) (by decide) (by decide)
    (by decide) (by decide) (by decide)

/-! ## Claim C10 -/

/-- Anonymous runs on a stored `NaN` counter never prompt and never heal
the counter. -/
theorem runUses_nan (ts : List Nat) : ∀ st : Store,
    isLoggedIn st = false → storeGet st usageKey = some (str "NaN") →
    (runUses st ts).1 = List.replicate ts.length Decision.noPrompt ∧
      storeGet (runUses st ts).2 usageKey = some (str "NaN") ∧
      isLoggedIn (runUses st ts).2 = false := by
  induction ts with
  | nil => exact fun st hL hc => ⟨rfl, hc, hL⟩
  | cons t ts ih =>
    intro st hL hc
    have hstep : recordUse st t = (Decision.noPrompt, storeSet st usageKey (str "NaN")) := by
      rw [recordUse_anon st t hL, hc]
      show recordStep (jsParseInt (str "NaN")) st t = _
      rw [(by decide : jsParseInt (str "NaN") = none), recordStep_none]
    have hL1 : isLoggedIn (storeSet st usageKey (str "NaN")) = false := by
      rw [isLoggedIn_set_usage]
      exact hL
    obtain ⟨hd, hc2, hL2⟩ := ih (storeSet st usageKey (str "NaN")) hL1
      (storeGet_set_self st usageKey _)
    unfold runUses
    rw [hstep]
    refine ⟨?_, hc2, hL2⟩
    simp only [List.length_cons, List.replicate]
    rw [← hd]

/-- C10, as stated, is false at one input: the empty-string counter does
not parse (`parseInt('')` is NaN), yet the `getItem || '0'` fallback
replaces the falsy empty string by `'0'`, so `recordUse` stores `1` — not
the literal `NaN`. -/
theorem claim_C10_counterexample :
    jsParseInt ([] : Str) = none ∧
      recordUse [(usageKey, ([] : Str))] 5 =
        (Decision.noPrompt, storeSet [(usageKey, ([] : Str))] usageKey (str "1")) ∧
      ¬ recordUse [(usageKey, ([] : Str))] 5 =
          (Decision.noPrompt, storeSet [(usageKey, ([] : Str))] usageKey (str "NaN")) :=
  ⟨by decide, by decide, by decide⟩

/-- C10 (amended): with no Session, a stored *non-empty* counter whose
integer parse fails makes `recordUse` store the literal string `NaN` and
return "no prompt"; every later anonymous call keeps the counter at `NaN`
and never prompts — the corrupt counter is never deleted or healed.  The
empty-string counter, though it also fails to parse, is caught by the
`getItem || '0'` fallback instead: `recordUse` stores `1` and counting
proceeds normally. -/
theorem claim_C10 (st : Store) (now : Nat) (s : Str)
    (hL : isLoggedIn st = false)
    (hc : storeGet st usageKey = some s)
    (hbad : jsParseInt s = none) :
    (s.isEmpty = false →
      recordUse st now = (Decision.noPrompt, storeSet st usageKey (str "NaN")) ∧
        ∀ ts : List Nat,
          (runUses (storeSet st usageKey (str "NaN")) ts).1 =
              List.replicate ts.length Decision.noPrompt ∧
            storeGet (runUses (storeSet st usageKey (str "NaN")) ts).2 usageKey =
              some (str "NaN")) ∧
      (s.isEmpty = true →
        recordUse st now = (Decision.noPrompt, storeSet st usageKey (str "1"))) := by
  constructor
  · intro hne
    have h1 : recordUse st now = (Decision.noPrompt, storeSet st usageKey (str "NaN")) := by
      rw [recordUse_anon st now hL, hc, jsOr_nonempty s _ hne, hbad, recordStep_none]
    refine ⟨h1, fun ts => ?_⟩
    have hL1 : isLoggedIn (storeSet st usageKey (str "NaN")) = false := by
      rw [isLoggedIn_set_usage]
      exact hL
    obtain ⟨hd, hc2, _⟩ := runUses_nan ts (storeSet st usageKey (str "NaN")) hL1
      (storeGet_set_self st usageKey _)
    exact ⟨hd, hc2⟩
  · intro he
    have hs : s = [] := by
      cases s
      · rfl
      · simp [List.isEmpty] at he
    subst hs
    rw [recordUse_anon st now hL, hc]
    show recordStep (jsParseInt (str "0")) st now = _
    rw [(by decide : jsParseInt (str "0") = some ((0 : Nat) : Int))]
    rw [recordStep_nat 0 st now, if_neg (by omega)]
    rw [(by decide : jsNatToStr (0 + 1) = str "1")]

/-- Witness: C10 (amended) on a store whose counter reads `abc`. -/
theorem claim_C10_witness :
    recordUse [(usageKey, str "abc")] 5 =
        (Decision.noPrompt, storeSet [(usageKey, str "abc")] usageKey (str "NaN")) ∧
      ∀ ts : List Nat,
        (runUses (storeSet [(usageKey, str "abc")] usageKey (str "NaN")) ts).1 =
            List.replicate ts.length Decision.noPrompt ∧
          storeGet (runUses (storeSet [(usageKey, str "abc")] usageKey (str "NaN")) ts).2
            usageKey = some (str "NaN") :=
  (claim_C10 [(usageKey, str "abc")] 5 (str "abc") (by decide) (by decide)
    (by decide)).1 (by decide)

/-! ## Session store lemmas -/

theorem getCurrentUser_absent (st : Store) (h : storeGet st userKey = none) :
    getCurrentUser st = (none, st) := by
  unfold getCurrentUser
  rw [h]

theorem getCurrentUser_got (st : Store) (u : Str) (h : storeGet st userKey = some u) :
    getCurrentUser st = parseStored u st := by
  unfold getCurrentUser
  rw [h]

theorem parseStored_empty (u : Str) (st : Store) (h : u.isEmpty = true) :
    parseStored u st = (none, st) := by
  unfold parseStored
  rw [if_pos h]

theorem parseStored_ok (u : Str) (st : Store) (obj : List (Str × Str))
    (hne : u.isEmpty = false) (hp : parseJson u = some obj) :
    parseStored u st = (some obj, st) := by
  unfold parseStored
  rw [if_neg (by simp [hne]), hp]

theorem parseStored_corrupt (u : Str) (st : Store) (hne : u.isEmpty = false)
    (hp : parseJson u = none) : parseStored u st = (none, storeRemove st userKey) := by
  unfold parseStored
  rw [if_neg (by simp [hne]), hp]

/-! ## Claim C9 -/

/-- C9, as stated, is false: on a corrupt stored record (here the
unparsable `x`), `isLoggedIn` answers `true` while the load returns
absent. -/
theorem claim_C9_counterexample :
    isLoggedIn [(userKey, ['x'])] = true ∧
      (getCurrentUser [(userKey, ['x'])]).1 = none :=
  ⟨by decide, by decide⟩

/-- C9 (amended): `isLoggedIn` is a raw truthiness check of the stored
record, so it implies nothing was loaded only one way: a present load
implies `isLoggedIn`, and the two agree whenever the record is absent,
falsy or parses — the lone disagreement is a non-empty record that fails
to parse. -/
theorem claim_C9 (st : Store) :
    ((getCurrentUser st).1.isSome = true → isLoggedIn st = true) ∧
      (storeGet st userKey = none → isLoggedIn st = false ∧ (getCurrentUser st).1 = none) ∧
      (∀ s, storeGet st userKey = some s → s.isEmpty = true →
        isLoggedIn st = false ∧ (getCurrentUser st).1 = none) ∧
      (∀ s obj, storeGet st userKey = some s → s.isEmpty = false → parseJson s = some obj →
        isLoggedIn st = true ∧ (getCurrentUser st).1.isSome = true) := by
  refine ⟨?_, ?_, ?_, ?_⟩
  · intro h
    cases hq : storeGet st userKey with
    | none =>
      rw [getCurrentUser_absent st hq] at h
      simp at h
    | some u =>
      rw [getCurrentUser_got st u hq] at h
      by_cases he : u.isEmpty = true
      · rw [parseStored_empty u st he] at h
        simp at h
      · have he' : u.isEmpty = false := by simpa using he
        unfold isLoggedIn truthy
        rw [hq]
        show (!u.isEmpty) = true
        rw [he']
        rfl
  · intro h
    refine ⟨?_, ?_⟩
    · unfold isLoggedIn truthy
      rw [h]
    · rw [getCurrentUser_absent st h]
  · intro s hq he
    refine ⟨?_, ?_⟩
    · unfold isLoggedIn truthy
      rw [hq]
      show (!s.isEmpty) = false
      rw [he]
      rfl
    · rw [getCurrentUser_got st s hq, parseStored_empty s st he]
  · intro s obj hq he hp
    refine ⟨?_, ?_⟩
    · unfold isLoggedIn truthy
      rw [hq]
      show (!s.isEmpty) = true
      rw [he]
      rfl
    · rw [getCurrentUser_got st s hq, parseStored_ok s st obj he hp]
      rfl

/-- Witness: C9 on a store holding a well-formed record. -/
theorem claim_C9_witness :
    isLoggedIn [(userKey, obr :: [cbr])] = true ∧
      (getCurrentUser [(userKey, obr :: [cbr])]).1.isSome = true :=
  (claim_C9 [(userKey, obr :: [cbr])]).2.2.2 (obr :: [cbr]) [] (by decide) (by decide)
    (by decide)

/-! ## Claim C6 -/

/-- C6, as stated, is false at one input: the empty-string record fails to
deserialize (`JSON.parse('')` throws), yet the load's truthiness
short-circuit returns absent without deleting it, so the corrupt record
remains in storage. -/
theorem claim_C6_counterexample :
    parseJson ([] : Str) = none ∧
      (getCurrentUser [(userKey, ([] : Str))]).1 = none ∧
      storeGet (getCurrentUser [(userKey, ([] : Str))]).2 userKey = some [] :=
  ⟨by decide, by decide, by decide⟩

/-- C6 (amended): a non-empty stored record that fails to parse is deleted
by the load, which returns absent, and a second load still returns absent
with no record present; the empty record also loads as absent (twice) but
is left in place. -/
theorem claim_C6 (st : Store) (s : Str) (h : storeGet st userKey = some s)
    (hbad : parseJson s = none) :
    (s.isEmpty = false →
      getCurrentUser st = (none, storeRemove st userKey) ∧
        storeGet (storeRemove st userKey) userKey = none ∧
        getCurrentUser (storeRemove st userKey) = (none, storeRemove st userKey)) ∧
      (s.isEmpty = true → getCurrentUser st = (none, st)) := by
  constructor
  · intro hne
    have h1 : getCurrentUser st = (none, storeRemove st userKey) := by
      rw [getCurrentUser_got st s h, parseStored_corrupt s st hne hbad]
    have h2 : storeGet (storeRemove st userKey) userKey = none := storeGet_remove_self st userKey
    exact ⟨h1, h2, getCurrentUser_absent _ h2⟩
  · intro he
    rw [getCurrentUser_got st s h, parseStored_empty s st he]

/-- Witness: C6 on a store whose record is the unparsable `x`. -/
theorem claim_C6_witness :
    getCurrentUser [(userKey, ['x'])] = (none, storeRemove [(userKey, ['x'])] userKey) ∧
      storeGet (storeRemove [(userKey, ['x'])] userKey) userKey = none ∧
      getCurrentUser (storeRemove [(userKey, ['x'])] userKey) =
        (none, storeRemove [(userKey, ['x'])] userKey) :=
  (claim_C6 [(userKey, ['x'])] ['x'] (by decide) (by decide)).1 (by decide)

/-! ## Orchestrator lemmas -/

theorem stringifySession_nonempty (u : Session) : (stringifySession u).isEmpty = false := rfl

theorem mock_refuse (host : Str) (gid nameO emailO picO : Option Str) (now : Nat)
    (rand : Str) (st : Store) (hallow : allowedHost host = false) :
    mockGoogleLogin host gid nameO emailO picO now rand st = (false, st) := by
  unfold mockGoogleLogin
  rw [hallow]
  rfl

theorem mock_success (host : Str) (gid nameO emailO picO : Option Str) (now : Nat)
    (rand : Str) (st : Store) (hallow : allowedHost host = true) (hgid : truthy gid = true) :
    mockGoogleLogin host gid nameO emailO picO now rand st =
      (true, storeRemove (storeSet st userKey (stringifySession
        (mkMockUserData (gid.getD []) nameO emailO picO now rand))) usageKey) := by
  unfold mockGoogleLogin
  rw [hallow, hgid]
  rfl

theorem fallback_refused (host : Str) (gid nameO emailO picO : Option Str) (now : Nat)
    (rand : Str) (st : Store) (hallow : allowedHost host = false) :
    fallbackAfterFailure host gid nameO emailO picO now rand st =
      (Outcome.surfaced (str "Google login failed"), st) := by
  unfold fallbackAfterFailure
  rw [mock_refuse host gid nameO emailO picO now rand st hallow]
  rfl

theorem resolve_allowed (host : Str) (gid nameO emailO picO : Option Str)
    (exch : ExchangeResult) (now : Nat) (rand : Str) (st : Store)
    (hgid : truthy gid = true) (hallow : allowedHost host = true) :
    resolveIdentity host gid nameO emailO picO exch now rand st =
      (Outcome.completed, (mockGoogleLogin host gid nameO emailO picO now rand st).2) := by
  unfold resolveIdentity
  rw [hgid, hallow]
  rfl

theorem resolve_failed_exchange (host : Str) (gid nameO emailO picO : Option Str)
    (exch : ExchangeResult) (now : Nat) (rand : Str) (st : Store)
    (hgid : truthy gid = true) (hallow : allowedHost host = false)
    (hfail : exchangeGood exch = false) :
    resolveIdentity host gid nameO emailO picO exch now rand st =
      fallbackAfterFailure host gid nameO emailO picO now rand st := by
  unfold resolveIdentity
  rw [hgid, hallow]
  cases exch with
  | failed => rfl
  | responded tok uname uid =>
    have htok : truthy tok = false := hfail
    show (if truthy tok = true then _ else
      fallbackAfterFailure host gid nameO emailO picO now rand st) = _
    rw [htok]
    rfl

/-! ## Claim C3 -/

/-- C3, as stated, is false: on a host outside the designated list (where
the exchange path is the one actually taken), a failed exchange falls back
to `mockGoogleLogin`, which refuses that host, so no Session is persisted
and a failure message is surfaced to the user. -/
theorem claim_C3_counterexample :
    resolveIdentity (str "example.com") (some (str "abc")) none none none
        ExchangeResult.failed 0 (str "r") [] =
      (Outcome.surfaced (str "Google login failed"), []) ∧
      storeGet ([] : Store) userKey = none :=
  ⟨by decide, by decide⟩

/-- C3 (amended): with a truthy id and a failed exchange (transport error,
non-success status, bad body, or a response without a truthy token), the
outcome is split by host: a designated host synthesises and persists a
Session locally (no exchange consulted), while every other host attempts
fallback synthesis, is refused, surfaces a failure message and leaves the
store untouched — no Session is persisted. -/
theorem claim_C3 (host : Str) (gid nameO emailO picO : Option Str)
    (exch : ExchangeResult) (now : Nat) (rand : Str) (st : Store)
    (hgid : truthy gid = true) (hfail : exchangeGood exch = false) :
    (allowedHost host = true →
      (resolveIdentity host gid nameO emailO picO exch now rand st).1 = Outcome.completed ∧
        truthy (storeGet (resolveIdentity host gid nameO emailO picO exch now rand st).2
          userKey) = true) ∧
      (allowedHost host = false →
        (resolveIdentity host gid nameO emailO picO exch now rand st).1 =
            Outcome.surfaced (str "Google login failed") ∧
          (resolveIdentity host gid nameO emailO picO exch now rand st).2 = st) := by
  constructor
  · intro hallow
    rw [resolve_allowed host gid nameO emailO picO exch now rand st hgid hallow]
    rw [mock_success host gid nameO emailO picO now rand st hallow hgid]
    refine ⟨rfl, ?_⟩
    show truthy (storeGet (storeRemove (storeSet st userKey _) usageKey) userKey) = true
    rw [storeGet_remove_other _ _ _ (by decide), storeGet_set_self]
    unfold truthy
    show (!(stringifySession _).isEmpty) = true
    rw [stringifySession_nonempty]
    rfl
  · intro hallow
    rw [resolve_failed_exchange host gid nameO emailO picO exch now rand st hgid hallow hfail]
    rw [fallback_refused host gid nameO emailO picO now rand st hallow]
    exact ⟨rfl, rfl⟩

/-- Witness: C3 on an allowed host (`localhost`) and on a disallowed one
(`example.com`), both with a failed exchange. -/
theorem claim_C3_witness :
    ((resolveIdentity (str "localhost") (some (str "abc")) none none none
          ExchangeResult.failed 3 (str "r") []).1 = Outcome.completed ∧
        truthy (storeGet (resolveIdentity (str "localhost") (some (str "abc")) none none none
          ExchangeResult.failed 3 (str "r") []).2 userKey) = true) ∧
      ((resolveIdentity (str "example.com") (some (str "abc")) none none none
          ExchangeResult.failed 3 (str "r") []).1 =
            Outcome.surfaced (str "Google login failed") ∧
        (resolveIdentity (str "example.com") (some (str "abc")) none none none
          ExchangeResult.failed 3 (str "r") []).2 = []) :=
  ⟨(claim_C3 (str "localhost") (some (str "abc")) none none none ExchangeResult.failed 3
      (str "r") [] (by decide) (by decide)).1 (by decide),
    (claim_C3 (str "example.com") (some (str "abc")) none none none ExchangeResult.failed 3
      (str "r") [] (by decide) (by decide)).2 (by decide)⟩

/-! ## Claim C7 -/

/-- C7, as stated, is false: when `name` is absent the synthesised Session's
username falls back to the email, but the generated-avatar URL is keyed by
the literal `User`, not by the Session's username. -/
theorem claim_C7_counterexample :
    (mkMockUserData (str "abc") none (some (str "bo@x.com")) none 5 (str "r0")).username =
        str "bo@x.com" ∧
      (mkMockUserData (str "abc") none (some (str "bo@x.com")) none 5 (str "r0")).picture =
        str "https://ui-avatars.com/api/?name=User&background=random" ∧
      ¬ (mkMockUserData (str "abc") none (some (str "bo@x.com")) none 5 (str "r0")).picture =
          avatarFor (mkMockUserData (str "abc") none (some (str "bo@x.com")) none 5
            (str "r0")).username :=
  ⟨by decide, by decide, by decide⟩

/-- C7 (amended): fallback synthesis builds `userId` from the timestamp and
`token` from the random suffix; `username` is the display name, else the
email, else `Local User`; `avatarUrl` is the provided picture, else a
generated-avatar URL keyed by the display name if present and by the
literal `User` otherwise — not by the Session's username. -/
theorem claim_C7 (gid : Str) (nameO emailO picO : Option Str) (now : Nat) (rand : Str) :
    (mkMockUserData gid nameO emailO picO now rand).userId = str "mock-" ++ jsNatToStr now ∧
      (mkMockUserData gid nameO emailO picO now rand).token = str "mock-token-" ++ rand ∧
      (truthy nameO = true →
        (mkMockUserData gid nameO emailO picO now rand).username = nameO.getD []) ∧
      (truthy nameO = false → truthy emailO = true →
        (mkMockUserData gid nameO emailO picO now rand).username = emailO.getD []) ∧
      (truthy nameO = false → truthy emailO = false →
        (mkMockUserData gid nameO emailO picO now rand).username = str "Local User") ∧
      (truthy picO = true →
        (mkMockUserData gid nameO emailO picO now rand).picture = picO.getD []) ∧
      (truthy picO = false → truthy nameO = true →
        (mkMockUserData gid nameO emailO picO now rand).picture = avatarFor (nameO.getD [])) ∧
      (truthy picO = false → truthy nameO = false →
        (mkMockUserData gid nameO emailO picO now rand).picture = avatarFor (str "User")) := by
  unfold mkMockUserData jsOr
  refine ⟨rfl, rfl, ?_, ?_, ?_, ?_, ?_, ?_⟩
  · intro h
    simp [h]
  · intro h1 h2
    simp [h1, h2]
  · intro h1 h2
    simp [h1, h2]
  · intro h
    simp [h]
  · intro h1 h2
    simp [h1, h2]
  · intro h1 h2
    simp [h1, h2]

/-- Witness: C7 with a display name present and no picture. -/
theorem claim_C7_witness :
    (mkMockUserData (str "g") (some (str "Bo")) none none 7 (str "rr")).userId =
        str "mock-" ++ jsNatToStr 7 ∧
      (mkMockUserData (str "g") (some (str "Bo")) none none 7 (str "rr")).username =
        (some (str "Bo")).getD [] ∧
      (mkMockUserData (str "g") (some (str "Bo")) none none 7 (str "rr")).picture =
        avatarFor ((some (str "Bo")).getD []) :=
  ⟨(claim_C7 (str "g") (some (str "Bo")) none none 7 (str "rr")).1,
    (claim_C7 (str "g") (some (str "Bo")) none none 7 (str "rr")).2.2.1 (by decide),
    (claim_C7 (str "g") (some (str "Bo")) none none 7 (str "rr")).2.2.2.2.2.2.1 (by decide)
      (by decide)⟩

/-! ## JSON lexer lemmas -/

theorem lexJ_obr (t : Str) : lexGo (obr :: t) none = (lexGo t none).map (JTok.lbrace :: ·) :=
  rfl

theorem lexJ_cbr (t : Str) : lexGo (cbr :: t) none = (lexGo t none).map (JTok.rbrace :: ·) :=
  rfl

theorem lexJ_colon (t : Str) : lexGo (':' :: t) none = (lexGo t none).map (JTok.colon :: ·) :=
  rfl

theorem lexJ_comma (t : Str) : lexGo (',' :: t) none = (lexGo t none).map (JTok.comma :: ·) :=
  rfl

theorem lexJ_quote (t : Str) : lexGo (qc :: t) none = lexGo t (some []) :=
  rfl

theorem lexStr_close (t acc : Str) :
    lexGo (qc :: t) (some acc) = (lexGo t none).map (JTok.jstr acc.reverse :: ·) := by
  conv_lhs => rw [lexGo.eq_def]; whnf
  rfl

theorem lexStr_plain (c : Char) (t acc : Str) (h32 : 32 ≤ c.toNat) (hq : ¬ c = qc)
    (hb : ¬ c = bsl) : lexGo (c :: t) (some acc) = lexGo t (some (c :: acc)) := by
  have h32' : ¬ c.toNat < 32 := by omega
  conv_lhs => rw [lexGo.eq_def]
  simp [hq, hb, h32']

theorem lexStr_escQ (t acc : Str) :
    lexGo (bsl :: qc :: t) (some acc) = lexGo t (some (qc :: acc)) := by
  conv_lhs => rw [lexGo.eq_def]; whnf

theorem lexStr_escB (t acc : Str) :
    lexGo (bsl :: bsl :: t) (some acc) = lexGo t (some (bsl :: acc)) := by
  conv_lhs => rw [lexGo.eq_def]; whnf

theorem escCh_plain (c : Char) (h32 : 32 ≤ c.toNat) (hq : ¬ c = qc) (hb : ¬ c = bsl) :
    escCh c = [c] := by
  unfold escCh
  rw [if_neg hq, if_neg hb,
    if_neg (by intro e; rw [e] at h32; revert h32; decide),
    if_neg (by intro e; rw [e] at h32; revert h32; decide),
    if_neg (by intro e; rw [e] at h32; revert h32; decide),
    if_neg (by intro e; rw [e] at h32; revert h32; decide),
    if_neg (by intro e; rw [e] at h32; revert h32; decide),
    if_neg (by omega)]

theorem lexGo_escStr (v : Str) : noCtl v = true → ∀ rest acc : Str,
    lexGo (escStr v ++ (qc :: rest)) (some acc) =
      (lexGo rest none).map (fun tks => JTok.jstr (acc.reverse ++ v) :: tks) := by
  induction v with
  | nil =>
    intro _ rest acc
    show lexGo (qc :: rest) (some acc) = _
    rw [lexStr_close]
    simp
  | cons c v' ih =>
    intro hv rest acc
    have hc32 : 32 ≤ c.toNat := by
      have := (List.all_eq_true.mp hv) c (by simp)
      simpa using this
    have hv' : noCtl v' = true := by
      unfold noCtl at hv ⊢
      rw [List.all_eq_true] at hv ⊢
      exact fun x hx => hv x (List.mem_cons_of_mem _ hx)
    have hesc : escStr (c :: v') ++ (qc :: rest) = escCh c ++ (escStr v' ++ (qc :: rest)) := by
      unfold escStr
      simp
    by_cases hq : c = qc
    · subst hq
      rw [hesc, (rfl : escCh qc = [bsl, qc])]
      show lexGo (bsl :: (qc :: (escStr v' ++ (qc :: rest)))) (some acc) = _
      rw [lexStr_escQ, ih hv' rest (qc :: acc)]
      have e2 : (qc :: acc).reverse ++ v' = acc.reverse ++ (qc :: v') := by simp
      rw [e2]
    · by_cases hb : c = bsl
      · subst hb
        rw [hesc, (rfl : escCh bsl = [bsl, bsl])]
        show lexGo (bsl :: (bsl :: (escStr v' ++ (qc :: rest)))) (some acc) = _
        rw [lexStr_escB, ih hv' rest (bsl :: acc)]
        have e2 : (bsl :: acc).reverse ++ v' = acc.reverse ++ (bsl :: v') := by simp
        rw [e2]
      · rw [hesc, escCh_plain c hc32 hq hb]
        show lexGo (c :: (escStr v' ++ (qc :: rest))) (some acc) = _
        rw [lexStr_plain c _ acc hc32 hq hb, ih hv' rest (c :: acc)]
        have e2 : (c :: acc).reverse ++ v' = acc.reverse ++ (c :: v') := by simp
        rw [e2]

theorem lexGo_jfield (k v R : Str) (hk : noCtl k = true) (hv : noCtl v = true) :
    lexGo (jfield k v ++ R) none =
      (lexGo R none).map (fun tks => JTok.jstr k :: JTok.colon :: JTok.jstr v :: tks) := by
  have e : jfield k v ++ R =
      qc :: (escStr k ++ (qc :: (':' :: (qc :: (escStr v ++ (qc :: R)))))) := by
    unfold jfield quoteJ
    simp
  rw [e, lexJ_quote, lexGo_escStr k hk _ [], lexJ_colon, lexJ_quote, lexGo_escStr v hv R []]
  cases h : lexGo R none <;> simp

theorem lex_stringify (s : Session) (h1 : noCtl s.userId = true) (h2 : noCtl s.username = true)
    (h3 : noCtl s.token = true) (h4 : noCtl s.googleId = true) (h5 : noCtl s.picture = true)
    (h6 : noCtl s.email = true) :
    lexJ (stringifySession s) = some
      (JTok.lbrace ::
       JTok.jstr (str "userId") :: JTok.colon :: JTok.jstr s.userId :: JTok.comma ::
       JTok.jstr (str "username") :: JTok.colon :: JTok.jstr s.username :: JTok.comma ::
       JTok.jstr (str "token") :: JTok.colon :: JTok.jstr s.token :: JTok.comma ::
       JTok.jstr (str "googleId") :: JTok.colon :: JTok.jstr s.googleId :: JTok.comma ::
       JTok.jstr (str "picture") :: JTok.colon :: JTok.jstr s.picture :: JTok.comma ::
       JTok.jstr (str "email") :: JTok.colon :: JTok.jstr s.email :: [JTok.rbrace]) := by
  unfold lexJ stringifySession
  rw [lexJ_obr, lexGo_jfield (str "userId") s.userId _ (by decide) h1, lexJ_comma,
      lexGo_jfield (str "username") s.username _ (by decide) h2, lexJ_comma,
      lexGo_jfield (str "token") s.token _ (by decide) h3, lexJ_comma,
      lexGo_jfield (str "googleId") s.googleId _ (by decide) h4, lexJ_comma,
      lexGo_jfield (str "picture") s.picture _ (by decide) h5, lexJ_comma,
      lexGo_jfield (str "email") s.email _ (by decide) h6]
  rfl

theorem parseJson_stringify (s : Session) (h1 : noCtl s.userId = true)
    (h2 : noCtl s.username = true) (h3 : noCtl s.token = true) (h4 : noCtl s.googleId = true)
    (h5 : noCtl s.picture = true) (h6 : noCtl s.email = true) :
    parseJson (stringifySession s) = some (sessionObj s) := by
  unfold parseJson
  rw [lex_stringify s h1 h2 h3 h4 h5 h6]
  rfl

/-! ## C5: save/load round-trip -/

/-- C5: for every Session whose six field values contain no control
characters, `login` followed by `getCurrentUser` recovers the same member
list (every field of the saved Session, unchanged) and leaves the store as
`login` wrote it. -/
theorem claim_C5 (s : Session) (st : Store) (h1 : noCtl s.userId = true)
    (h2 : noCtl s.username = true) (h3 : noCtl s.token = true) (h4 : noCtl s.googleId = true)
    (h5 : noCtl s.picture = true) (h6 : noCtl s.email = true) :
    getCurrentUser (saveSession s st) = (some (sessionObj s), saveSession s st) := by
  unfold getCurrentUser saveSession
  rw [storeGet_remove_other _ _ _ (by decide), storeGet_set_self]
  show parseStored (stringifySession s)
      (storeRemove (storeSet st userKey (stringifySession s)) usageKey) =
    (some (sessionObj s), storeRemove (storeSet st userKey (stringifySession s)) usageKey)
  unfold parseStored
  rw [parseJson_stringify s h1 h2 h3 h4 h5 h6]
  rfl

theorem claim_C5_witness :
    noCtl (str "u-9") = true ∧ noCtl (str "Bo B") = true ∧ noCtl (str "tok.1") = true ∧
      noCtl (str "gid") = true ∧ noCtl (str "http://a/p.png") = true ∧
      noCtl (str "bo@x.co") = true ∧
      getCurrentUser (saveSession
          ⟨str "u-9", str "Bo B", str "tok.1", str "gid", str "http://a/p.png", str "bo@x.co"⟩
          []) =
        (some (sessionObj
          ⟨str "u-9", str "Bo B", str "tok.1", str "gid", str "http://a/p.png", str "bo@x.co"⟩),
         saveSession
          ⟨str "u-9", str "Bo B", str "tok.1", str "gid", str "http://a/p.png", str "bo@x.co"⟩
          []) :=
  ⟨by decide, by decide, by decide, by decide, by decide, by decide,
    claim_C5 ⟨str "u-9", str "Bo B", str "tok.1", str "gid", str "http://a/p.png",
        str "bo@x.co"⟩ []
      (by decide) (by decide) (by decide) (by decide) (by decide) (by decide)⟩

end DD
